import Mathlib

/-!
Verification of the personal-care e-commerce backend core:
the order placement / cancellation engine (`src/modules/Order/order.service.ts`)
and the cart resolution / merge / summary logic (`src/modules/Cart/cart.service.ts`).

The services are shallowly embedded as pure functions over an explicit
database state `DB`.  A Prisma `$transaction` whose callback throws is
modelled by an `Except Err` computation: an `.error` result carries no
state, which is exactly transactional rollback (the caller keeps the
pre-transaction `DB`).  JavaScript numbers are modelled as `ℚ` (prices)
and `ℤ` (quantities and stock); `Number.prototype.toFixed(2)` followed by
`parseFloat` is modelled by exact decimal rounding (ties away from the
smaller value, as ECMA-262 specifies "pick the larger n").
-/

deriving instance DecidableEq for Except

set_option maxRecDepth 200000

namespace PersonalCare

/-- Product status enum from the Prisma schema (`active | draft | inactive`). -/
inductive PStatus where
  | active
  | draft
  | inactive
  deriving DecidableEq, Repr

/-- A `Product` row: the fields the cart/order services read
(`id, name, price, discountPrice, stock, status`). -/
structure Product where
  pid : Nat
  name : String
  price : ℚ
  discountPrice : Option ℚ
  stock : Int
  status : PStatus
  deriving DecidableEq, Repr

/-- A `Cart` row: `userId` for logged-in users, `guestCartId` for guests. -/
structure CartRow where
  id : Nat
  userId : Option Nat
  guestCartId : Option Nat
  deriving DecidableEq, Repr

/-- A `CartItem` row; `(cartId, productId)` is a compound unique key in the
schema and list position models `createdAt` ordering. -/
structure CartItem where
  id : Nat
  cartId : Nat
  productId : Nat
  quantity : Int
  deriving DecidableEq, Repr

/-- `OrderStatus` enum from the Prisma schema. -/
inductive OrderStatus where
  | pending
  | confirmed
  | processing
  | shipped
  | delivered
  | cancelled
  | returned
  | refunded
  deriving DecidableEq, Repr

/-- `PaymentStatus` enum from the Prisma schema. -/
inductive PayStatus where
  | pending
  | paid
  | failed
  | refunded
  deriving DecidableEq, Repr

/-- An `Address` row; `fullName`/`city` stand for the snapshot payload. -/
structure Address where
  aid : Nat
  userId : Nat
  fullName : String
  city : String
  deriving DecidableEq, Repr

/-- An `OrderItem` snapshot row (quantity, unit price and per-unit discount
frozen at placement time). -/
structure OrderItem where
  productId : Nat
  quantity : Int
  price : ℚ
  discount : ℚ
  deriving DecidableEq, Repr

/-- An `Order` row with its owned `OrderItem` snapshots inlined. -/
structure Order where
  oid : Nat
  userId : Nat
  status : OrderStatus
  totalAmount : ℚ
  discountAmount : ℚ
  shippingAmount : ℚ
  grandTotal : ℚ
  paymentMethod : String
  paymentStatus : PayStatus
  shippingAddressId : Nat
  shippingAddress : Address
  billingAddress : Address
  items : List OrderItem
  deriving DecidableEq, Repr

/-- The database state seen by the two services.  `nextId` models the
store's fresh-id generator (Prisma's DB-generated unique ids). -/
structure DB where
  products : List Product
  carts : List CartRow
  cartItems : List CartItem
  orders : List Order
  addresses : List Address
  nextId : Nat
  deriving DecidableEq, Repr

/-- Error taxonomy of the two services (spec §7).  `crash` stands for a
runtime failure inside a transaction (null dereference / update of a
missing row), which also rolls the transaction back. -/
inductive Err where
  | emptyCart
  | insufficientStock (productName : String)
  | addressNotFound
  | orderNotFound
  | itemNotFound
  | invalidIdentity
  | invalidState
  | crash
  deriving DecidableEq, Repr

/-- `prisma.product.findUnique({ where: { id } })`. -/
def findProduct (db : DB) (i : Nat) : Option Product :=
  db.products.find? (fun p => p.pid == i)

/-- Dereference an included `item.product`; a missing row is a runtime
crash inside the transaction. -/
def getProduct (db : DB) (i : Nat) : Except Err Product :=
  match findProduct db i with
  | some p => .ok p
  | none => .error .crash

/-- `tx.product.update({ where: { id }, data: { stock: increment/decrement } })`;
Prisma throws (`P2025`) when no row matches. -/
def updateProductStock (db : DB) (i : Nat) (delta : Int) : Except Err DB :=
  if db.products.any (fun p => p.pid == i) then
    .ok { db with
          products := db.products.map (fun p =>
            if p.pid == i then { p with stock := p.stock + delta } else p) }
  else .error .crash

/-- The items of one cart (`include { items }`), in stored order. -/
def itemsOf (db : DB) (cid : Nat) : List CartItem :=
  db.cartItems.filter (fun it => it.cartId == cid)

/-- JavaScript `a || b` on a nullable number: `0`, `null` and `undefined`
are falsy, so a present-but-zero `discountPrice` falls back to `price`. -/
def jsOr (dp : Option ℚ) (price : ℚ) : ℚ :=
  match dp with
  | none => price
  | some d => if d = 0 then price else d

/-- JavaScript `a ?? b` on a nullable number: only `null`/`undefined`
fall back, a present `0` is kept. -/
def nullish (dp : Option ℚ) (price : ℚ) : ℚ :=
  match dp with
  | none => price
  | some d => d

/-- Input of `placeOrder` (`CreateOrderInput` of `order.validation.ts`). -/
structure CreateOrderInput where
  addressId : Nat
  paymentMethod : String
  deliveryOption : String
  couponCode : Option String
  deriving DecidableEq, Repr

/-- The stock-check / subtotal loop of `placeOrder` (order.service.ts
lines 87–93): for each cart item, throw `InsufficientStock` naming the
product when `product.stock < item.quantity`, else accumulate
`(discountPrice || price) * quantity`. -/
def validateAndSubtotal (db : DB) (acc : ℚ) : List CartItem → Except Err ℚ
  | [] => .ok acc
  | it :: rest =>
    match getProduct db it.productId with
    | .error e => .error e
    | .ok p =>
      if p.stock < it.quantity then
        .error (.insufficientStock p.name)
      else
        validateAndSubtotal db (acc + jsOr p.discountPrice p.price * (it.quantity : ℚ)) rest

/-- The `items.create` mapping of `placeOrder` (lines 135–142): snapshot
quantity, current price, and per-unit discount `price - (discountPrice || price)`. -/
def snapshotItems (db : DB) : List CartItem → Except Err (List OrderItem)
  | [] => .ok []
  | it :: rest =>
    match getProduct db it.productId with
    | .error e => .error e
    | .ok p =>
      match snapshotItems db rest with
      | .error e => .error e
      | .ok tail =>
        .ok ({ productId := it.productId, quantity := it.quantity,
               price := p.price,
               discount := p.price - jsOr p.discountPrice p.price } :: tail)

/-- The stock-decrement loop of `placeOrder` (lines 146–152). -/
def decrementAll (db : DB) : List CartItem → Except Err DB
  | [] => .ok db
  | it :: rest =>
    match updateProductStock db it.productId (-it.quantity) with
    | .error e => .error e
    | .ok db' => decrementAll db' rest

/-- `OrderService.placeOrder` (order.service.ts lines 74–161), with the
DB-generated order id modelled by `db.nextId`. -/
def placeOrder (db : DB) (userId : Nat) (data : CreateOrderInput) :
    Except Err (DB × Order) :=
  match db.carts.find? (fun c => c.userId == some userId) with
  | none => .error .emptyCart
  | some cart =>
    let items := itemsOf db cart.id
    if items.isEmpty then .error .emptyCart
    else
      match validateAndSubtotal db 0 items with
      | .error e => .error e
      | .ok subtotal =>
        let shippingAmount : ℚ := if data.deliveryOption = "express" then 180 else 120
        let discountAmount : ℚ := 0
        let grandTotal : ℚ := subtotal + shippingAmount - discountAmount
        match db.addresses.find? (fun a => a.aid == data.addressId) with
        | none => .error .addressNotFound
        | some address =>
          match snapshotItems db items with
          | .error e => .error e
          | .ok oitems =>
            let order : Order :=
              { oid := db.nextId, userId := userId, status := .pending,
                totalAmount := subtotal, discountAmount := discountAmount,
                shippingAmount := shippingAmount, grandTotal := grandTotal,
                paymentMethod := data.paymentMethod, paymentStatus := .pending,
                shippingAddressId := data.addressId,
                shippingAddress := address, billingAddress := address,
                items := oitems }
            let db1 : DB := { db with orders := db.orders ++ [order],
                                      nextId := db.nextId + 1 }
            match decrementAll db1 items with
            | .error e => .error e
            | .ok db2 =>
              .ok ({ db2 with cartItems :=
                       db2.cartItems.filter (fun it => it.cartId != cart.id) },
                   order)

/-- The stock-restore loop of `cancelOrder` (lines 186–196). -/
def incrementAll (db : DB) : List OrderItem → Except Err DB
  | [] => .ok db
  | it :: rest =>
    match updateProductStock db it.productId it.quantity with
    | .error e => .error e
    | .ok db' => incrementAll db' rest

/-- `order.update({ data: { status } })` inside `cancelOrder`. -/
def setOrderStatus (db : DB) (oid : Nat) (st : OrderStatus) : DB :=
  { db with orders := db.orders.map (fun o =>
      if o.oid == oid then { o with status := st } else o) }

/-- `OrderService.cancelOrder` (order.service.ts lines 163–200). -/
def cancelOrder (db : DB) (userId : Nat) (orderId : Nat) :
    Except Err (DB × Order) :=
  match db.orders.find? (fun o => o.oid == orderId && o.userId == userId) with
  | none => .error .orderNotFound
  | some order =>
    if order.status ≠ OrderStatus.pending then .error .invalidState
    else
      let db1 := setOrderStatus db orderId .cancelled
      match incrementAll db1 order.items with
      | .error e => .error e
      | .ok db2 => .ok (db2, { order with status := .cancelled })

/-- `CartService.resolveCart` (cart.service.ts lines 51–91): a present
`userId` takes the user branch (a guest token passed alongside is simply
ignored); otherwise a present `guestCartId` takes the guest branch; with
neither a `BadRequestError` ("Either authentication token or guestCartId
is required") is thrown.  In either branch a missing cart is created. -/
def resolveCart (db : DB) (userId : Option Nat) (guestCartId : Option Nat) :
    Except Err (CartRow × DB) :=
  match userId with
  | some uid =>
    match db.carts.find? (fun c => c.userId == some uid) with
    | some cart => .ok (cart, db)
    | none =>
      let cart : CartRow := { id := db.nextId, userId := some uid, guestCartId := none }
      .ok (cart, { db with carts := db.carts ++ [cart], nextId := db.nextId + 1 })
  | none =>
    match guestCartId with
    | some g =>
      match db.carts.find? (fun c => c.guestCartId == some g) with
      | some cart => .ok (cart, db)
      | none =>
        let cart : CartRow := { id := db.nextId, userId := none, guestCartId := some g }
        .ok (cart, { db with carts := db.carts ++ [cart], nextId := db.nextId + 1 })
    | none => .error .invalidIdentity

/-- `Number(x.toFixed(2))`: round to 2 decimals, ties to the larger value
(ECMA-262's "pick the larger n"), over exact rationals. -/
def round2 (q : ℚ) : ℚ := (((q * 100 + 1/2).floor : ℤ) : ℚ) / 100

/-- One line of `buildCartResponse`'s `items` array. -/
structure CartLineView where
  id : Nat
  productId : Nat
  quantity : Int
  unitPrice : ℚ
  subtotal : ℚ
  savings : ℚ
  deriving DecidableEq, Repr

/-- The `summary` object of `buildCartResponse`. -/
structure CartSummary where
  totalItems : Int
  subtotal : ℚ
  totalSavings : ℚ
  deriving DecidableEq, Repr

/-- The value returned by `buildCartResponse`. -/
structure CartResponse where
  cartId : Nat
  guestCartId : Option Nat
  items : List CartLineView
  summary : CartSummary
  deriving DecidableEq, Repr

/-- One line of `buildCartResponse` (cart.service.ts lines 360–381):
`unitPrice = discountPrice ?? price`, `subtotal` rounded per line, and
`savings` rounded per line when `discountPrice` is truthy, else `0`. -/
def lineView (db : DB) (it : CartItem) : Except Err CartLineView :=
  match getProduct db it.productId with
  | .error e => .error e
  | .ok p =>
    let unitPrice := nullish p.discountPrice p.price
    let lineSubtotal := round2 (unitPrice * (it.quantity : ℚ))
    let savings : ℚ :=
      match p.discountPrice with
      | none => 0
      | some d => if d = 0 then 0 else round2 ((p.price - d) * (it.quantity : ℚ))
    .ok { id := it.id, productId := it.productId, quantity := it.quantity,
          unitPrice := unitPrice, subtotal := lineSubtotal, savings := savings }

/-- The `cart.items.map(...)` of `buildCartResponse`. -/
def lineViews (db : DB) : List CartItem → Except Err (List CartLineView)
  | [] => .ok []
  | it :: rest =>
    match lineView db it with
    | .error e => .error e
    | .ok v =>
      match lineViews db rest with
      | .error e => .error e
      | .ok vs => .ok (v :: vs)

/-- `CartService.buildCartResponse` (cart.service.ts lines 359–401):
line views, then summary sums of the already-rounded line values, each
sum rounded again to 2 decimals. -/
def buildCartResponse (db : DB) (cart : CartRow) : Except Err CartResponse :=
  match lineViews db (itemsOf db cart.id) with
  | .error e => .error e
  | .ok vs =>
    .ok { cartId := cart.id, guestCartId := cart.guestCartId, items := vs,
          summary :=
            { totalItems := vs.foldl (fun s v => s + v.quantity) 0,
              subtotal := round2 (vs.foldl (fun s v => s + v.subtotal) 0),
              totalSavings := round2 (vs.foldl (fun s v => s + v.savings) 0) } }

/-- `CartService.getCart`: resolve (creating a cart if needed), then build
the response. -/
def getCart (db : DB) (userId : Option Nat) (guestCartId : Option Nat) :
    Except Err (CartResponse × DB) :=
  match resolveCart db userId guestCartId with
  | .error e => .error e
  | .ok (cart, db1) =>
    match buildCartResponse db1 cart with
    | .error e => .error e
    | .ok resp => .ok (resp, db1)

/-- Input of `mergeGuestCart` (`MergeCartInput`). -/
structure MergeCartInput where
  guestCartId : Nat
  deriving DecidableEq, Repr

/-- The per-guest-line body of `mergeGuestCart`'s transaction loop
(cart.service.ts lines 303–339): skip inactive products; cap the guest
quantity at stock and skip when the cap is below 1; on conflict update
the user line to `min(max(userQty, guestQty), stock)`; otherwise create
a user line with the capped quantity. -/
def mergeStep (userCartId : Nat) (db : DB) (guestItem : CartItem) : Except Err DB :=
  match getProduct db guestItem.productId with
  | .error e => .error e
  | .ok p =>
    if p.status ≠ PStatus.active then .ok db
    else
      let maxQty := min guestItem.quantity p.stock
      if maxQty < 1 then .ok db
      else
        match db.cartItems.find? (fun it =>
            it.cartId == userCartId && it.productId == guestItem.productId) with
        | some existingUserItem =>
          let mergedQty := min (max existingUserItem.quantity guestItem.quantity) p.stock
          .ok { db with cartItems := db.cartItems.map (fun it =>
                  if it.id == existingUserItem.id then { it with quantity := mergedQty }
                  else it) }
        | none =>
          .ok { db with
                cartItems := db.cartItems ++
                  [{ id := db.nextId, cartId := userCartId,
                     productId := guestItem.productId, quantity := maxQty }],
                nextId := db.nextId + 1 }

/-- The `for (const guestItem of guestCart.items)` loop. -/
def mergeLoop (userCartId : Nat) (db : DB) : List CartItem → Except Err DB
  | [] => .ok db
  | g :: rest =>
    match mergeStep userCartId db g with
    | .error e => .error e
    | .ok db' => mergeLoop userCartId db' rest

/-- `CartService.mergeGuestCart` (cart.service.ts lines 268–354): no-op
returning the user's cart when the guest cart is absent or empty; else
ensure a user cart, run the merge loop, delete all guest-cart lines and
the guest cart row, and return the refreshed user cart. -/
def mergeGuestCart (db : DB) (userId : Nat) (data : MergeCartInput) :
    Except Err (CartResponse × DB) :=
  match db.carts.find? (fun c => c.guestCartId == some data.guestCartId) with
  | none => getCart db (some userId) none
  | some guestCart =>
    let gItems := itemsOf db guestCart.id
    if gItems.isEmpty then getCart db (some userId) none
    else
      let userFound := db.carts.find? (fun c => c.userId == some userId)
      let userCart : CartRow :=
        match userFound with
        | some c => c
        | none => { id := db.nextId, userId := some userId, guestCartId := none }
      let db1 : DB :=
        match userFound with
        | some _ => db
        | none => { db with carts := db.carts ++ [userCart], nextId := db.nextId + 1 }
      match mergeLoop userCart.id db1 gItems with
      | .error e => .error e
      | .ok db2 =>
        let db3 : DB :=
          { db2 with cartItems := db2.cartItems.filter (fun it => it.cartId != guestCart.id) }
        let db4 : DB :=
          { db3 with carts := db3.carts.filter (fun c => c.id != guestCart.id) }
        getCart db4 (some userId) none

/-! ### Specification-side helper definitions -/

/-- The unit price `placeOrder` charges for a product:
`discountPrice || price` (`0` for a product id that does not resolve;
only used under hypotheses that make the lookup succeed). -/
def unitOf (db : DB) (pid : Nat) : ℚ :=
  match findProduct db pid with
  | some p => jsOr p.discountPrice p.price
  | none => 0

/-- The subtotal `placeOrder` computes over a list of cart items. -/
def subtotalSum (db : DB) (items : List CartItem) : ℚ :=
  (items.map (fun it => unitOf db it.productId * (it.quantity : ℚ))).sum

/-- Total quantity of a given product over a list of cart items. -/
def qtyInCart (items : List CartItem) (pid : Nat) : Int :=
  (items.map (fun it => if it.productId == pid then it.quantity else 0)).sum

/-- Total quantity of a given product over an order's snapshot items. -/
def qtyInOrder (items : List OrderItem) (pid : Nat) : Int :=
  (items.map (fun oi => if oi.productId == pid then oi.quantity else 0)).sum

/-- The live stock of a product (`0` for an id with no product row). -/
def stockOf (db : DB) (pid : Nat) : Int :=
  match findProduct db pid with
  | some p => p.stock
  | none => 0

/-- Sum of the placed quantities of a product over all orders. -/
def placedQty (db : DB) (pid : Nat) : Int :=
  (db.orders.map (fun o => qtyInOrder o.items pid)).sum

/-- Sum of the placed quantities of a product over cancelled orders. -/
def cancelledQty (db : DB) (pid : Nat) : Int :=
  (db.orders.map (fun o =>
    if o.status = OrderStatus.cancelled then qtyInOrder o.items pid else 0)).sum

/-- Sum of the placed quantities of a product over non-cancelled orders. -/
def nonCancelledQty (db : DB) (pid : Nat) : Int :=
  (db.orders.map (fun o =>
    if o.status = OrderStatus.cancelled then 0 else qtyInOrder o.items pid)).sum

/-- Modelled from the spec: the stock-accounting formula of §8 read
literally, "stock = initialStock − Σ(placed quantities in non-cancelled
orders) + Σ(cancelled order quantities)". -/
def specStockFormula (db0 dbf : DB) (pid : Nat) : Int :=
  stockOf db0 pid - nonCancelledQty dbf pid + cancelledQty dbf pid

/-- Database well-formedness: the constraints the schema and the write
paths guarantee (non-negative stock, unique product ids, the
`(cartId, productId)` compound unique key, positive cart quantities from
input validation, DB-generated unique order ids, non-negative snapshot
quantities). -/
structure ValidDB (db : DB) : Prop where
  stocks_nonneg : ∀ p ∈ db.products, 0 ≤ p.stock
  products_nodup : (db.products.map Product.pid).Nodup
  cartItems_nodup :
    db.cartItems.Pairwise (fun a b => a.cartId = b.cartId → a.productId ≠ b.productId)
  cartItems_pos : ∀ it ∈ db.cartItems, 1 ≤ it.quantity
  orders_nodup : (db.orders.map Order.oid).Nodup
  orders_fresh : ∀ o ∈ db.orders, o.oid < db.nextId
  orders_qty_nonneg : ∀ o ∈ db.orders, ∀ oi ∈ o.items, 0 ≤ oi.quantity

/-- One user-facing operation of the order lifecycle. -/
inductive Op where
  | place (userId : Nat) (data : CreateOrderInput)
  | cancel (userId : Nat) (orderId : Nat)

/-- Run one operation; a failed operation (a rolled-back transaction)
leaves the database unchanged. -/
def stepOp (db : DB) (op : Op) : DB :=
  match op with
  | .place uid data =>
    match placeOrder db uid data with
    | .ok (db', _) => db'
    | .error _ => db
  | .cancel uid oid =>
    match cancelOrder db uid oid with
    | .ok (db', _) => db'
    | .error _ => db

/-- Run a sequence of operations. -/
def runOps (db : DB) (ops : List Op) : DB := ops.foldl stepOp db

/-- The `Order` row `placeOrder` creates, as a function of the inputs
(order id = the DB-generated `db.nextId`). -/
def mkPlacedOrder (db : DB) (uid : Nat) (data : CreateOrderInput) (cart : CartRow)
    (addr : Address) (oitems : List OrderItem) : Order :=
  { oid := db.nextId, userId := uid, status := .pending,
    totalAmount := subtotalSum db (itemsOf db cart.id),
    discountAmount := 0,
    shippingAmount := if data.deliveryOption = "express" then 180 else 120,
    grandTotal := subtotalSum db (itemsOf db cart.id) +
      (if data.deliveryOption = "express" then (180 : ℚ) else 120) - 0,
    paymentMethod := data.paymentMethod, paymentStatus := .pending,
    shippingAddressId := data.addressId, shippingAddress := addr, billingAddress := addr,
    items := oitems }

/-- Add `d p.pid` to the stock of every product of a list (the shape of
the iterated `tx.product.update` calls). -/
def stockAdd (l : List Product) (d : Nat → Int) : List Product :=
  l.map (fun p => { p with stock := p.stock + d p.pid })

/-- Relative stock accounting between two database states: the change in
every product's stock is explained by placements (decrements) and
cancellations (increments). -/
def Acc (a b : DB) : Prop := ∀ pid,
  stockOf b pid = stockOf a pid - (placedQty b pid - placedQty a pid)
    + (cancelledQty b pid - cancelledQty a pid)

/-- The quantity of the line a given cart holds for a given product
(`None` when the cart has no such line). -/
def userLineQty (db : DB) (cid pid : Nat) : Option Int :=
  (db.cartItems.find? (fun it => it.cartId == cid && it.productId == pid)).map
    CartItem.quantity

/-- The unit price `buildCartResponse` charges for a product:
`discountPrice ?? price` (`0` for an id that does not resolve). -/
def unitOfCart (db : DB) (pid : Nat) : ℚ :=
  match findProduct db pid with
  | some p => nullish p.discountPrice p.price
  | none => 0

/-- Cart-table well-formedness: unique DB-generated cart ids below the id
counter, cart items referencing ids below the counter, each cart owned by
exactly one identity kind, and the unique index on `guestCartId`. -/
structure ValidCarts (db : DB) : Prop where
  ids_nodup : (db.carts.map CartRow.id).Nodup
  ids_fresh : ∀ c ∈ db.carts, c.id < db.nextId
  items_fresh : ∀ it ∈ db.cartItems, it.cartId < db.nextId
  one_identity : ∀ c ∈ db.carts, c.userId = none ∨ c.guestCartId = none
  token_unique : db.carts.Pairwise
    (fun a b => a.guestCartId = none ∨ a.guestCartId ≠ b.guestCartId)

/-! ### Concrete example states -/

/-- Happy-path placement state (spec §8): product A price 50,
discountPrice 40, stock 10; user 1's cart holds qty 2; a valid address. -/
def dbHappy : DB :=
  { products := [{ pid := 1, name := "A", price := 50, discountPrice := some 40,
                   stock := 10, status := .active }],
    carts := [{ id := 10, userId := some 1, guestCartId := none }],
    cartItems := [{ id := 20, cartId := 10, productId := 1, quantity := 2 }],
    orders := [], addresses := [{ aid := 2, userId := 1, fullName := "U", city := "C" }],
    nextId := 30 }

/-- The `CreateOrderInput` used by the concrete scenarios
(deliveryOption "normal"). -/
def inpNormal : CreateOrderInput :=
  { addressId := 2, paymentMethod := "cod", deliveryOption := "normal", couponCode := none }

/-- Insufficient-stock state (spec §8): cart qty 5, stock 3. -/
def dbShort : DB :=
  { products := [{ pid := 1, name := "A", price := 50, discountPrice := none,
                   stock := 3, status := .active }],
    carts := [{ id := 10, userId := some 1, guestCartId := none }],
    cartItems := [{ id := 20, cartId := 10, productId := 1, quantity := 5 }],
    orders := [], addresses := [{ aid := 2, userId := 1, fullName := "U", city := "C" }],
    nextId := 30 }

/-- A product with `discountPrice = 0` and price 50 (legal by the zod
schema: `min(0)` plus a truthiness-based refine): the state separating
`||` from `??`. -/
def dbZeroDisc : DB :=
  { products := [{ pid := 1, name := "A", price := 50, discountPrice := some 0,
                   stock := 10, status := .active }],
    carts := [{ id := 10, userId := some 1, guestCartId := none }],
    cartItems := [{ id := 20, cartId := 10, productId := 1, quantity := 1 }],
    orders := [], addresses := [{ aid := 2, userId := 1, fullName := "U", city := "C" }],
    nextId := 30 }

/-- A pending order with lines [(A,2),(B,1)] (spec §8 cancellation
scenario). -/
def ordAB : Order :=
  { oid := 30, userId := 1, status := .pending, totalAmount := 120,
    discountAmount := 0, shippingAmount := 120, grandTotal := 240,
    paymentMethod := "cod", paymentStatus := .pending,
    shippingAddressId := 2,
    shippingAddress := { aid := 2, userId := 1, fullName := "U", city := "C" },
    billingAddress := { aid := 2, userId := 1, fullName := "U", city := "C" },
    items := [{ productId := 1, quantity := 2, price := 50, discount := 0 },
              { productId := 2, quantity := 1, price := 20, discount := 0 }] }

/-- Cancellation scenario state (spec §8): the pending order `ordAB`,
stocks already decremented by placement. -/
def dbCancel : DB :=
  { products := [{ pid := 1, name := "A", price := 50, discountPrice := none,
                   stock := 8, status := .active },
                 { pid := 2, name := "B", price := 20, discountPrice := none,
                   stock := 4, status := .active }],
    carts := [{ id := 10, userId := some 1, guestCartId := none }],
    cartItems := [],
    orders := [ordAB],
    addresses := [{ aid := 2, userId := 1, fullName := "U", city := "C" }],
    nextId := 31 }

/-- `CreateOrderInput` whose address id matches no address row. -/
def inpBadAddr : CreateOrderInput :=
  { addressId := 99, paymentMethod := "cod", deliveryOption := "normal", couponCode := none }

/-- The cart response `buildCartResponse` produces on `dbRound`. -/
def respRound : CartResponse :=
  { cartId := 10, guestCartId := none,
    items := [{ id := 20, productId := 1, quantity := 1, unitPrice := 10.005,
                subtotal := 10.01, savings := 0 },
              { id := 21, productId := 2, quantity := 1, unitPrice := 10.005,
                subtotal := 10.01, savings := 0 }],
    summary := { totalItems := 2, subtotal := 20.02, totalSavings := 0 } }

/-- The response `mergeGuestCart dbGuest 1` returns (the guest line moved
into a freshly created user cart). -/
def respGuestMerge : CartResponse :=
  { cartId := 30, guestCartId := none,
    items := [{ id := 31, productId := 1, quantity := 1, unitPrice := 50,
                subtotal := 50, savings := 0 }],
    summary := { totalItems := 1, subtotal := 50, totalSavings := 0 } }

/-- The database state after `mergeGuestCart dbGuest 1`: the guest cart
row and its lines are gone, the user cart holds the merged line. -/
def dbfGuest : DB :=
  { products := [{ pid := 1, name := "A", price := 50, discountPrice := none,
                   stock := 10, status := .active }],
    carts := [{ id := 30, userId := some 1, guestCartId := none }],
    cartItems := [{ id := 31, cartId := 30, productId := 1, quantity := 1 }],
    orders := [], addresses := [], nextId := 32 }

/-- The cart response `buildCartResponse` produces on `dbHappy`. -/
def respHappy : CartResponse :=
  { cartId := 10, guestCartId := none,
    items := [{ id := 20, productId := 1, quantity := 2, unitPrice := 40,
                subtotal := 80, savings := 20 }],
    summary := { totalItems := 2, subtotal := 80, totalSavings := 20 } }

/-- A state whose only address belongs to user 2, while user 1 places the
order with that address id. -/
def dbForeignAddr : DB :=
  { products := [{ pid := 1, name := "A", price := 50, discountPrice := none,
                   stock := 10, status := .active }],
    carts := [{ id := 10, userId := some 1, guestCartId := none }],
    cartItems := [{ id := 20, cartId := 10, productId := 1, quantity := 1 }],
    orders := [], addresses := [{ aid := 2, userId := 2, fullName := "V", city := "D" }],
    nextId := 30 }

/-- Guest-merge scenario state (spec §8): guest cart token 7 with one line
[{A, qty 1}], user 1 has no cart yet. -/
def dbGuest : DB :=
  { products := [{ pid := 1, name := "A", price := 50, discountPrice := none,
                   stock := 10, status := .active }],
    carts := [{ id := 11, userId := none, guestCartId := some 7 }],
    cartItems := [{ id := 21, cartId := 11, productId := 1, quantity := 1 }],
    orders := [], addresses := [], nextId := 30 }

/-- Merge-conflict scenario state: user line qty 2 and guest line qty 5
for the same product, stock 10. -/
def dbMerge10 : DB :=
  { products := [{ pid := 1, name := "A", price := 50, discountPrice := none,
                   stock := 10, status := .active }],
    carts := [{ id := 10, userId := some 1, guestCartId := none },
              { id := 11, userId := none, guestCartId := some 7 }],
    cartItems := [{ id := 20, cartId := 10, productId := 1, quantity := 2 },
                  { id := 21, cartId := 11, productId := 1, quantity := 5 }],
    orders := [], addresses := [], nextId := 30 }

/-- Same as `dbMerge10` with stock 3. -/
def dbMerge3 : DB :=
  { products := [{ pid := 1, name := "A", price := 50, discountPrice := none,
                   stock := 3, status := .active }],
    carts := [{ id := 10, userId := some 1, guestCartId := none },
              { id := 11, userId := none, guestCartId := some 7 }],
    cartItems := [{ id := 20, cartId := 10, productId := 1, quantity := 2 },
                  { id := 21, cartId := 11, productId := 1, quantity := 5 }],
    orders := [], addresses := [], nextId := 30 }

/-- Rounding scenario state (spec §8): two lines priced 10.005, qty 1
each, no discounts. -/
def dbRound : DB :=
  { products := [{ pid := 1, name := "P1", price := 10.005, discountPrice := none,
                   stock := 5, status := .active },
                 { pid := 2, name := "P2", price := 10.005, discountPrice := none,
                   stock := 5, status := .active }],
    carts := [{ id := 10, userId := some 1, guestCartId := none }],
    cartItems := [{ id := 20, cartId := 10, productId := 1, quantity := 1 },
                  { id := 21, cartId := 10, productId := 2, quantity := 1 }],
    orders := [], addresses := [], nextId := 30 }

/-- The user cart row of the concrete states above. -/
def cartU1 : CartRow := { id := 10, userId := some 1, guestCartId := none }

/-- The address row of the concrete states above. -/
def addrU1 : Address := { aid := 2, userId := 1, fullName := "U", city := "C" }

/-! ### Basic lemmas about lookups and stock updates -/

theorem find?_map_pid (l : List Product) (f : Product → Product)
    (hf : ∀ p, (f p).pid = p.pid) (i : Nat) :
    (l.map f).find? (fun p => p.pid == i) = (l.find? (fun p => p.pid == i)).map f := by
  induction l with
  | nil => rfl
  | cons p rest ih =>
    simp only [List.map_cons, List.find?_cons, hf p]
    cases hb : (p.pid == i)
    · simpa using ih
    · simp

theorem findProduct_map (db : DB) (f : Product → Product)
    (hf : ∀ p, (f p).pid = p.pid) (i : Nat) :
    findProduct { db with products := db.products.map f } i = (findProduct db i).map f :=
  find?_map_pid db.products f hf i

theorem find?_pid_self {l : List Product} (hnd : (l.map Product.pid).Nodup)
    {p : Product} (hp : p ∈ l) : l.find? (fun q => q.pid == p.pid) = some p := by
  induction l with
  | nil => cases hp
  | cons q rest ih =>
    simp only [List.map_cons, List.nodup_cons] at hnd
    rcases List.mem_cons.mp hp with rfl | hp'
    · simp [List.find?_cons]
    · have hq : (q.pid == p.pid) = false := by
        refine beq_eq_false_iff_ne.mpr ?_
        intro he
        exact hnd.1 (he ▸ List.mem_map_of_mem Product.pid hp')
      simp only [List.find?_cons, hq]
      exact ih hnd.2 hp'

theorem findProduct_self (db : DB) (hnd : (db.products.map Product.pid).Nodup)
    {p : Product} (hp : p ∈ db.products) : findProduct db p.pid = some p :=
  find?_pid_self hnd hp

theorem findProduct_mem {db : DB} {i : Nat} {p : Product}
    (h : findProduct db i = some p) : p ∈ db.products ∧ p.pid = i := by
  have hm := List.find?_some h
  exact ⟨List.mem_of_find?_eq_some h, by simpa using hm⟩

theorem stockAdd_congr {l : List Product} {d1 d2 : Nat → Int}
    (h : ∀ j, d1 j = d2 j) : stockAdd l d1 = stockAdd l d2 := by
  unfold stockAdd
  exact List.map_congr_left (fun p _ => by rw [h p.pid])

theorem stockAdd_stockAdd (l : List Product) (d1 d2 : Nat → Int) :
    stockAdd (stockAdd l d1) d2 = stockAdd l (fun j => d1 j + d2 j) := by
  unfold stockAdd
  rw [List.map_map]
  refine List.map_congr_left (fun p _ => ?_)
  simp [Function.comp, add_assoc]

theorem update_map_eq_stockAdd (l : List Product) (i : Nat) (δ : Int) :
    l.map (fun p => if p.pid == i then { p with stock := p.stock + δ } else p) =
      stockAdd l (fun j => if j == i then δ else 0) := by
  unfold stockAdd
  refine List.map_congr_left (fun p _ => ?_)
  by_cases hc : p.pid = i
  · simp [hc]
  · simp [hc]

theorem updateProductStock_ok_char {db : DB} {i : Nat} {δ : Int} {db' : DB}
    (h : updateProductStock db i δ = .ok db') :
    (∃ p ∈ db.products, p.pid = i) ∧
      db' = { db with products := stockAdd db.products (fun j => if j == i then δ else 0) } := by
  unfold updateProductStock at h
  by_cases hc : db.products.any (fun p => p.pid == i) = true
  · rw [if_pos hc] at h
    injection h with h
    constructor
    · obtain ⟨p, hp, he⟩ := List.any_eq_true.mp hc
      exact ⟨p, hp, by simpa using he⟩
    · rw [← h, update_map_eq_stockAdd]
  · rw [if_neg hc] at h
    cases h

theorem updateProductStock_ok_of {db : DB} {i : Nat} {δ : Int}
    (h : ∃ p ∈ db.products, p.pid = i) :
    updateProductStock db i δ =
      .ok { db with products := stockAdd db.products (fun j => if j == i then δ else 0) } := by
  unfold updateProductStock
  rw [if_pos, update_map_eq_stockAdd]
  obtain ⟨p, hp, he⟩ := h
  exact List.any_eq_true.mpr ⟨p, hp, by simpa using he⟩

theorem qtyInCart_cons (it : CartItem) (rest : List CartItem) (j : Nat) :
    qtyInCart (it :: rest) j =
      (if it.productId == j then it.quantity else 0) + qtyInCart rest j := by
  simp [qtyInCart]

theorem decrementAll_ok_char {items : List CartItem} {db db' : DB}
    (h : decrementAll db items = .ok db') :
    db' = { db with products := stockAdd db.products (fun j => -qtyInCart items j) } := by
  induction items generalizing db with
  | nil =>
    simp only [decrementAll] at h
    injection h with h
    subst h
    simp [stockAdd, qtyInCart]
  | cons it rest ih =>
    simp only [decrementAll] at h
    cases hu : updateProductStock db it.productId (-it.quantity) with
    | error e => rw [hu] at h; cases h
    | ok db1 =>
      rw [hu] at h
      obtain ⟨-, hdb1⟩ := updateProductStock_ok_char hu
      have hrec := ih h
      subst hdb1
      rw [hrec]
      simp only [stockAdd_stockAdd]
      congr 1
      refine stockAdd_congr (fun j => ?_)
      rw [qtyInCart_cons]
      by_cases hc : it.productId = j
      · simp [hc]
        omega
      · have hc' : (j == it.productId) = false := beq_eq_false_iff_ne.mpr (fun he => hc he.symm)
        have hc'' : (it.productId == j) = false := beq_eq_false_iff_ne.mpr hc
        simp [hc', hc'']

theorem decrementAll_isOk {items : List CartItem} {db : DB}
    (h : ∀ it ∈ items, ∃ p ∈ db.products, p.pid = it.productId) :
    ∃ db', decrementAll db items = .ok db' := by
  induction items generalizing db with
  | nil => exact ⟨db, rfl⟩
  | cons it rest ih =>
    simp only [decrementAll]
    rw [updateProductStock_ok_of (h it (List.mem_cons_self it rest))]
    exact ih (fun it' hit' => by
      obtain ⟨p, hp, he⟩ := h it' (List.mem_cons_of_mem it hit')
      exact ⟨_, List.mem_map_of_mem _ hp, by simpa using he⟩)

theorem decrementAll_ok_of {items : List CartItem} {db : DB}
    (h : ∀ it ∈ items, ∃ p ∈ db.products, p.pid = it.productId) :
    decrementAll db items =
      .ok { db with products := stockAdd db.products (fun j => -qtyInCart items j) } := by
  obtain ⟨db', hd⟩ := decrementAll_isOk h
  rw [hd, decrementAll_ok_char hd]

/-! ### Increment loop, subtotal loop, snapshot loop -/

theorem qtyInOrder_cons (oi : OrderItem) (rest : List OrderItem) (j : Nat) :
    qtyInOrder (oi :: rest) j =
      (if oi.productId == j then oi.quantity else 0) + qtyInOrder rest j := by
  simp [qtyInOrder]

theorem incrementAll_ok_char {items : List OrderItem} {db db' : DB}
    (h : incrementAll db items = .ok db') :
    db' = { db with products := stockAdd db.products (fun j => qtyInOrder items j) } := by
  induction items generalizing db with
  | nil =>
    simp only [incrementAll] at h
    injection h with h
    subst h
    simp [stockAdd, qtyInOrder]
  | cons oi rest ih =>
    simp only [incrementAll] at h
    cases hu : updateProductStock db oi.productId oi.quantity with
    | error e => rw [hu] at h; cases h
    | ok db1 =>
      rw [hu] at h
      obtain ⟨-, hdb1⟩ := updateProductStock_ok_char hu
      have hrec := ih h
      subst hdb1
      rw [hrec]
      simp only [stockAdd_stockAdd]
      congr 1
      refine stockAdd_congr (fun j => ?_)
      rw [qtyInOrder_cons]
      by_cases hc : oi.productId = j
      · simp [hc]
      · have hc' : (j == oi.productId) = false := beq_eq_false_iff_ne.mpr (fun he => hc he.symm)
        have hc'' : (oi.productId == j) = false := beq_eq_false_iff_ne.mpr hc
        simp [hc', hc'']

theorem incrementAll_isOk {items : List OrderItem} {db : DB}
    (h : ∀ oi ∈ items, ∃ p ∈ db.products, p.pid = oi.productId) :
    ∃ db', incrementAll db items = .ok db' := by
  induction items generalizing db with
  | nil => exact ⟨db, rfl⟩
  | cons oi rest ih =>
    simp only [incrementAll]
    rw [updateProductStock_ok_of (h oi (List.mem_cons_self oi rest))]
    exact ih (fun oi' hit' => by
      obtain ⟨p, hp, he⟩ := h oi' (List.mem_cons_of_mem oi hit')
      exact ⟨_, List.mem_map_of_mem _ hp, by simpa using he⟩)

theorem incrementAll_ok_of {items : List OrderItem} {db : DB}
    (h : ∀ oi ∈ items, ∃ p ∈ db.products, p.pid = oi.productId) :
    incrementAll db items =
      .ok { db with products := stockAdd db.products (fun j => qtyInOrder items j) } := by
  obtain ⟨db', hd⟩ := incrementAll_isOk h
  rw [hd, incrementAll_ok_char hd]

theorem incrementAll_ok_exists {items : List OrderItem} {db db' : DB}
    (h : incrementAll db items = .ok db') :
    ∀ oi ∈ items, ∃ p ∈ db.products, p.pid = oi.productId := by
  induction items generalizing db with
  | nil => intro oi hoi; cases hoi
  | cons oi rest ih =>
    simp only [incrementAll] at h
    cases hu : updateProductStock db oi.productId oi.quantity with
    | error e => rw [hu] at h; cases h
    | ok db1 =>
      rw [hu] at h
      obtain ⟨hex, hdb1⟩ := updateProductStock_ok_char hu
      intro oi' hoi'
      rcases List.mem_cons.mp hoi' with rfl | hm
      · exact hex
      · obtain ⟨p, hp, he⟩ := ih h oi' hm
        rw [hdb1] at hp
        obtain ⟨q, hq, rfl⟩ := List.mem_map.mp hp
        exact ⟨q, hq, he⟩

theorem getProduct_ok_iff {db : DB} {i : Nat} {p : Product} :
    getProduct db i = .ok p ↔ findProduct db i = some p := by
  unfold getProduct
  cases h : findProduct db i
  · simp
  · simp

theorem validateAndSubtotal_ok_forall {db : DB} {items : List CartItem} {acc s : ℚ}
    (h : validateAndSubtotal db acc items = .ok s) :
    ∀ it ∈ items, ∃ p, findProduct db it.productId = some p ∧ ¬p.stock < it.quantity := by
  induction items generalizing acc with
  | nil => intro it hit; cases hit
  | cons it rest ih =>
    simp only [validateAndSubtotal] at h
    cases hg : getProduct db it.productId with
    | error e => simp only [hg] at h; cases h
    | ok p =>
      simp only [hg] at h
      by_cases hs : p.stock < it.quantity
      · rw [if_pos hs] at h; cases h
      · rw [if_neg hs] at h
        intro it' hit'
        rcases List.mem_cons.mp hit' with rfl | hm
        · exact ⟨p, getProduct_ok_iff.mp hg, hs⟩
        · exact ih h it' hm

theorem validateAndSubtotal_ok_val {db : DB} {items : List CartItem} {acc s : ℚ}
    (h : validateAndSubtotal db acc items = .ok s) :
    s = acc + subtotalSum db items := by
  induction items generalizing acc with
  | nil =>
    simp only [validateAndSubtotal] at h
    injection h with h
    simp [subtotalSum, ← h]
  | cons it rest ih =>
    simp only [validateAndSubtotal] at h
    cases hg : getProduct db it.productId with
    | error e => simp only [hg] at h; cases h
    | ok p =>
      simp only [hg] at h
      by_cases hs : p.stock < it.quantity
      · rw [if_pos hs] at h; cases h
      · rw [if_neg hs] at h
        have hu : unitOf db it.productId = jsOr p.discountPrice p.price := by
          unfold unitOf
          rw [getProduct_ok_iff.mp hg]
        have hv := ih h
        simp only [subtotalSum, List.map_cons, List.sum_cons] at hv ⊢
        rw [hv, hu]
        ring

theorem validateAndSubtotal_ok_of {db : DB} {items : List CartItem} (acc : ℚ)
    (h : ∀ it ∈ items, ∃ p, findProduct db it.productId = some p ∧ ¬p.stock < it.quantity) :
    validateAndSubtotal db acc items = .ok (acc + subtotalSum db items) := by
  induction items generalizing acc with
  | nil => simp [validateAndSubtotal, subtotalSum]
  | cons it rest ih =>
    obtain ⟨p, hp, hs⟩ := h it (List.mem_cons_self it rest)
    simp only [validateAndSubtotal, getProduct_ok_iff.mpr hp]
    rw [if_neg hs]
    rw [ih _ (fun it' h' => h it' (List.mem_cons_of_mem it h'))]
    have hu : unitOf db it.productId = jsOr p.discountPrice p.price := by
      unfold unitOf
      rw [hp]
    simp only [subtotalSum, List.map_cons, List.sum_cons, hu]
    congr 1
    ring

theorem validateAndSubtotal_insufficient {db : DB} {items : List CartItem} (acc : ℚ)
    (hall : ∀ it ∈ items, ∃ p, findProduct db it.productId = some p)
    (hbad : ∃ it ∈ items, ∃ p, findProduct db it.productId = some p ∧ p.stock < it.quantity) :
    ∃ it ∈ items, ∃ p, findProduct db it.productId = some p ∧ p.stock < it.quantity ∧
      validateAndSubtotal db acc items = .error (.insufficientStock p.name) := by
  induction items generalizing acc with
  | nil =>
    obtain ⟨it, hit, -⟩ := hbad
    cases hit
  | cons it rest ih =>
    obtain ⟨p, hp⟩ := hall it (List.mem_cons_self it rest)
    by_cases hs : p.stock < it.quantity
    · refine ⟨it, List.mem_cons_self it rest, p, hp, hs, ?_⟩
      simp only [validateAndSubtotal, getProduct_ok_iff.mpr hp]
      rw [if_pos hs]
    · have hbad' : ∃ it' ∈ rest, ∃ q, findProduct db it'.productId = some q ∧
          q.stock < it'.quantity := by
        obtain ⟨it', hit', q, hq, hlt⟩ := hbad
        rcases List.mem_cons.mp hit' with rfl | hm
        · rw [hp] at hq
          injection hq with hq
          subst hq
          exact absurd hlt hs
        · exact ⟨it', hm, q, hq, hlt⟩
      obtain ⟨it', hm, q, hq, hlt, heq⟩ :=
        ih (acc + jsOr p.discountPrice p.price * (it.quantity : ℚ))
          (fun x hx => hall x (List.mem_cons_of_mem it hx)) hbad'
      refine ⟨it', List.mem_cons_of_mem it hm, q, hq, hlt, ?_⟩
      simp only [validateAndSubtotal, getProduct_ok_iff.mpr hp]
      rw [if_neg hs]
      exact heq

theorem snapshotItems_ok_shape {db : DB} {items : List CartItem} {l : List OrderItem}
    (h : snapshotItems db items = .ok l) :
    l.map (fun oi => (oi.productId, oi.quantity)) =
      items.map (fun it => (it.productId, it.quantity)) := by
  induction items generalizing l with
  | nil =>
    simp only [snapshotItems] at h
    injection h with h
    subst h
    rfl
  | cons it rest ih =>
    simp only [snapshotItems] at h
    cases hg : getProduct db it.productId with
    | error e => simp only [hg] at h; cases h
    | ok p =>
      simp only [hg] at h
      cases hr : snapshotItems db rest with
      | error e => simp only [hr] at h; cases h
      | ok tail =>
        simp only [hr] at h
        injection h with h
        subst h
        simp [ih hr]

theorem snapshotItems_isOk {db : DB} {items : List CartItem}
    (hall : ∀ it ∈ items, ∃ p, findProduct db it.productId = some p) :
    ∃ l, snapshotItems db items = .ok l := by
  induction items with
  | nil => exact ⟨[], rfl⟩
  | cons it rest ih =>
    obtain ⟨p, hp⟩ := hall it (List.mem_cons_self it rest)
    obtain ⟨tail, htail⟩ := ih (fun x hx => hall x (List.mem_cons_of_mem it hx))
    refine ⟨{ productId := it.productId, quantity := it.quantity, price := p.price,
              discount := p.price - jsOr p.discountPrice p.price } :: tail, ?_⟩
    simp only [snapshotItems, getProduct_ok_iff.mpr hp, htail]

/-! ### Stock bookkeeping lemmas -/

theorem findProduct_stockAdd (db : DB) (d : Nat → Int) (i : Nat) :
    findProduct { db with products := stockAdd db.products d } i =
      (findProduct db i).map (fun p => { p with stock := p.stock + d p.pid }) := by
  unfold stockAdd
  exact findProduct_map db (fun p => { p with stock := p.stock + d p.pid }) (fun p => rfl) i

theorem stockOf_stockAdd (db : DB) (d : Nat → Int) (j : Nat) :
    stockOf { db with products := stockAdd db.products d } j =
      stockOf db j + (if (findProduct db j).isSome then d j else 0) := by
  unfold stockOf
  rw [findProduct_stockAdd]
  cases hf : findProduct db j with
  | none => simp
  | some p =>
    have hpid : p.pid = j := (findProduct_mem hf).2
    simp [hpid]

theorem sum_single_key {α : Type} {l : List α} (key : α → Nat) (val : α → Int) {k : Nat}
    (hnd : (l.map key).Nodup) {a : α} (ha : a ∈ l) (hk : key a = k) :
    (l.map (fun x => if key x == k then val x else 0)).sum = val a := by
  induction l with
  | nil => cases ha
  | cons b rest ih =>
    simp only [List.map_cons, List.nodup_cons] at hnd
    rcases List.mem_cons.mp ha with rfl | hm
    · simp only [List.map_cons, List.sum_cons]
      rw [if_pos (by simp [hk])]
      have hz : (rest.map (fun x => if key x == k then val x else 0)).sum = 0 := by
        apply List.sum_eq_zero
        intro y hy
        obtain ⟨x, hx, rfl⟩ := List.mem_map.mp hy
        rw [if_neg]
        simp only [beq_iff_eq]
        intro he
        exact hnd.1 (hk ▸ he ▸ List.mem_map_of_mem key hx)
      rw [hz, add_zero]
    · simp only [List.map_cons, List.sum_cons]
      have hbk : (key b == k) = false := by
        refine beq_eq_false_iff_ne.mpr ?_
        intro he
        refine hnd.1 ?_
        rw [he, ← hk]
        exact List.mem_map_of_mem key hm
      rw [hbk]
      simp only [Bool.false_eq_true, if_false, zero_add]
      exact ih hnd.2 hm

theorem sum_key_zero {α : Type} {l : List α} (key : α → Nat) (val : α → Int) {k : Nat}
    (h : ∀ x ∈ l, key x ≠ k) :
    (l.map (fun x => if key x == k then val x else 0)).sum = 0 := by
  apply List.sum_eq_zero
  intro y hy
  obtain ⟨x, hx, rfl⟩ := List.mem_map.mp hy
  rw [if_neg]
  simp only [beq_iff_eq]
  exact h x hx

theorem qtyInCart_single {items : List CartItem} {pid : Nat}
    (hnd : (items.map CartItem.productId).Nodup) {it : CartItem} (hm : it ∈ items)
    (hp : it.productId = pid) : qtyInCart items pid = it.quantity :=
  sum_single_key CartItem.productId CartItem.quantity hnd hm hp

theorem qtyInCart_zero {items : List CartItem} {pid : Nat}
    (h : ∀ it ∈ items, it.productId ≠ pid) : qtyInCart items pid = 0 :=
  sum_key_zero CartItem.productId CartItem.quantity h

theorem qtyInOrder_zero {items : List OrderItem} {pid : Nat}
    (h : ∀ oi ∈ items, oi.productId ≠ pid) : qtyInOrder items pid = 0 :=
  sum_key_zero OrderItem.productId OrderItem.quantity h

/-! ### placeOrder and cancelOrder characterizations -/

theorem qtyInOrder_eq_qtyInCart {oitems : List OrderItem} {items : List CartItem}
    (h : oitems.map (fun oi => (oi.productId, oi.quantity)) =
      items.map (fun it => (it.productId, it.quantity))) (j : Nat) :
    qtyInOrder oitems j = qtyInCart items j := by
  induction oitems generalizing items with
  | nil =>
    cases items with
    | nil => rfl
    | cons _ _ => cases h
  | cons oi rest ih =>
    cases items with
    | nil => cases h
    | cons it irest =>
      simp only [List.map_cons, List.cons.injEq, Prod.mk.injEq] at h
      obtain ⟨⟨h1, h2⟩, h3⟩ := h
      rw [qtyInOrder_cons, qtyInCart_cons, ih h3, h1, h2]

theorem placeOrder_ok_of {db : DB} {uid : Nat} {data : CreateOrderInput}
    {cart : CartRow} {addr : Address}
    (hc : db.carts.find? (fun c => c.userId == some uid) = some cart)
    (hne : itemsOf db cart.id ≠ [])
    (hok : ∀ it ∈ itemsOf db cart.id,
      ∃ p, findProduct db it.productId = some p ∧ ¬p.stock < it.quantity)
    (ha : db.addresses.find? (fun a => a.aid == data.addressId) = some addr) :
    ∃ oitems,
      oitems.map (fun oi => (oi.productId, oi.quantity)) =
        (itemsOf db cart.id).map (fun it => (it.productId, it.quantity)) ∧
      placeOrder db uid data = .ok
        ({ db with
            products := stockAdd db.products (fun j => -qtyInCart (itemsOf db cart.id) j),
            orders := db.orders ++ [mkPlacedOrder db uid data cart addr oitems],
            cartItems := db.cartItems.filter (fun it => it.cartId != cart.id),
            nextId := db.nextId + 1 },
          mkPlacedOrder db uid data cart addr oitems) := by
  obtain ⟨oitems, hsnap⟩ :=
    snapshotItems_isOk (fun it hit => ⟨(hok it hit).choose, (hok it hit).choose_spec.1⟩)
  refine ⟨oitems, snapshotItems_ok_shape hsnap, ?_⟩
  have hdec := @decrementAll_ok_of (itemsOf db cart.id)
    { db with orders := db.orders ++ [mkPlacedOrder db uid data cart addr oitems], nextId := db.nextId + 1 }
    (fun it hit => by
      obtain ⟨p, hp, -⟩ := hok it hit
      exact ⟨p, (findProduct_mem hp).1, (findProduct_mem hp).2⟩)
  simp only [placeOrder, hc]
  rw [if_neg (by simpa [List.isEmpty_iff] using hne)]
  rw [validateAndSubtotal_ok_of 0 hok]
  simp only [ha, hsnap, zero_add]
  simp only [mkPlacedOrder] at hdec
  rw [hdec]
  simp [mkPlacedOrder]

theorem placeOrder_ok_char {db : DB} {uid : Nat} {data : CreateOrderInput}
    {db' : DB} {ord : Order}
    (h : placeOrder db uid data = .ok (db', ord)) :
    ∃ cart addr oitems,
      db.carts.find? (fun c => c.userId == some uid) = some cart ∧
      itemsOf db cart.id ≠ [] ∧
      (∀ it ∈ itemsOf db cart.id,
        ∃ p, findProduct db it.productId = some p ∧ ¬p.stock < it.quantity) ∧
      db.addresses.find? (fun a => a.aid == data.addressId) = some addr ∧
      oitems.map (fun oi => (oi.productId, oi.quantity)) =
        (itemsOf db cart.id).map (fun it => (it.productId, it.quantity)) ∧
      ord = mkPlacedOrder db uid data cart addr oitems ∧
      db' = { db with
          products := stockAdd db.products (fun j => -qtyInCart (itemsOf db cart.id) j),
          orders := db.orders ++ [ord],
          cartItems := db.cartItems.filter (fun it => it.cartId != cart.id),
          nextId := db.nextId + 1 } := by
  have h0 := h
  cases hc : db.carts.find? (fun c => c.userId == some uid) with
  | none => simp only [placeOrder, hc] at h; cases h
  | some cart =>
    simp only [placeOrder, hc] at h
    by_cases hne : (itemsOf db cart.id).isEmpty = true
    · rw [if_pos hne] at h; cases h
    · rw [if_neg hne] at h
      have hne' : itemsOf db cart.id ≠ [] := fun he => hne (List.isEmpty_iff.mpr he)
      cases hv : validateAndSubtotal db 0 (itemsOf db cart.id) with
      | error e => simp only [hv] at h; cases h
      | ok s =>
        simp only [hv] at h
        cases ha : db.addresses.find? (fun a => a.aid == data.addressId) with
        | none => simp only [ha] at h; cases h
        | some addr =>
          have hok := validateAndSubtotal_ok_forall hv
          obtain ⟨oitems, hshape, heq⟩ := placeOrder_ok_of hc hne' hok ha
          rw [heq] at h0
          injection h0 with h0
          injection h0 with h1 h2
          refine ⟨cart, addr, oitems, rfl, hne', hok, rfl, hshape, h2.symm, ?_⟩
          rw [← h2, ← h1]

theorem cancelOrder_notFound {db : DB} {uid oid : Nat}
    (h : db.orders.find? (fun o => o.oid == oid && o.userId == uid) = none) :
    cancelOrder db uid oid = .error .orderNotFound := by
  simp only [cancelOrder, h]

theorem cancelOrder_invalidState {db : DB} {uid oid : Nat} {ord : Order}
    (hf : db.orders.find? (fun o => o.oid == oid && o.userId == uid) = some ord)
    (hs : ord.status ≠ OrderStatus.pending) :
    cancelOrder db uid oid = .error .invalidState := by
  simp only [cancelOrder, hf]
  rw [if_pos hs]

theorem cancelOrder_ok_of {db : DB} {uid oid : Nat} {ord : Order}
    (hf : db.orders.find? (fun o => o.oid == oid && o.userId == uid) = some ord)
    (hp : ord.status = OrderStatus.pending)
    (hex : ∀ oi ∈ ord.items, ∃ p ∈ db.products, p.pid = oi.productId) :
    cancelOrder db uid oid = .ok
      ({ db with
          products := stockAdd db.products (fun j => qtyInOrder ord.items j),
          orders := db.orders.map (fun o =>
            if o.oid == oid then { o with status := OrderStatus.cancelled } else o) },
        { ord with status := OrderStatus.cancelled }) := by
  simp only [cancelOrder, hf]
  rw [if_neg (by simp [hp])]
  have hinc := @incrementAll_ok_of ord.items
    (setOrderStatus db oid OrderStatus.cancelled) hex
  rw [hinc]
  simp [setOrderStatus]

theorem cancelOrder_ok_char {db : DB} {uid oid : Nat} {db' : DB} {ord' : Order}
    (h : cancelOrder db uid oid = .ok (db', ord')) :
    ∃ ord,
      db.orders.find? (fun o => o.oid == oid && o.userId == uid) = some ord ∧
      ord.status = OrderStatus.pending ∧
      (∀ oi ∈ ord.items, ∃ p ∈ db.products, p.pid = oi.productId) ∧
      ord' = { ord with status := OrderStatus.cancelled } ∧
      db' = { db with
          products := stockAdd db.products (fun j => qtyInOrder ord.items j),
          orders := db.orders.map (fun o =>
            if o.oid == oid then { o with status := OrderStatus.cancelled } else o) } := by
  cases hf : db.orders.find? (fun o => o.oid == oid && o.userId == uid) with
  | none => simp only [cancelOrder, hf] at h; cases h
  | some ord =>
    simp only [cancelOrder, hf] at h
    by_cases hp : ord.status = OrderStatus.pending
    · rw [if_neg (by simp [hp])] at h
      have hex : ∀ oi ∈ ord.items, ∃ p ∈ db.products, p.pid = oi.productId := by
        cases hi : incrementAll (setOrderStatus db oid OrderStatus.cancelled) ord.items with
        | error e => rw [hi] at h; cases h
        | ok db2 =>
          have hx := incrementAll_ok_exists hi
          simpa [setOrderStatus] using hx
      have heq := cancelOrder_ok_of hf hp hex
      simp only [cancelOrder, hf] at heq
      rw [if_neg (by simp [hp])] at heq
      rw [heq] at h
      injection h with h
      injection h with h1 h2
      exact ⟨ord, rfl, hp, hex, h2.symm, by rw [← h1]⟩
    · rw [if_pos hp] at h
      cases h

/-! ### Preservation of validity and stock accounting -/

theorem Acc_refl (db : DB) : Acc db db := by
  intro pid
  omega

theorem Acc_trans {a b c : DB} (h1 : Acc a b) (h2 : Acc b c) : Acc a c := by
  intro pid
  have := h1 pid
  have := h2 pid
  omega

theorem stockAdd_pids (l : List Product) (d : Nat → Int) :
    (stockAdd l d).map Product.pid = l.map Product.pid := by
  unfold stockAdd
  rw [List.map_map]
  rfl

theorem qtyInOrder_nonneg {items : List OrderItem}
    (h : ∀ oi ∈ items, 0 ≤ oi.quantity) (pid : Nat) : 0 ≤ qtyInOrder items pid := by
  apply List.sum_nonneg
  intro x hx
  obtain ⟨oi, hoi, rfl⟩ := List.mem_map.mp hx
  by_cases hc : (oi.productId == pid) = true
  · rw [if_pos hc]
    exact h oi hoi
  · rw [if_neg hc]

theorem itemsOf_pids_nodup {db : DB}
    (v : db.cartItems.Pairwise (fun a b => a.cartId = b.cartId → a.productId ≠ b.productId))
    (cid : Nat) : ((itemsOf db cid).map CartItem.productId).Nodup := by
  have hsub : List.Sublist (itemsOf db cid) db.cartItems := List.filter_sublist _
  have hp : (itemsOf db cid).Pairwise
      (fun a b => a.cartId = b.cartId → a.productId ≠ b.productId) := v.sublist hsub
  have hp2 : (itemsOf db cid).Pairwise (fun a b => a.productId ≠ b.productId) := by
    refine hp.imp_of_mem ?_
    intro a b ha hb hab
    have ha' := (List.mem_filter.mp ha).2
    have hb' := (List.mem_filter.mp hb).2
    exact hab ((beq_iff_eq.mp ha').trans (beq_iff_eq.mp hb').symm)
  exact hp2.map _ (fun _ _ h => h)

theorem place_stocks_nonneg {db : DB} {cid : Nat}
    (v1 : ∀ p ∈ db.products, 0 ≤ p.stock)
    (v2 : (db.products.map Product.pid).Nodup)
    (hnd : ((itemsOf db cid).map CartItem.productId).Nodup)
    (hok : ∀ it ∈ itemsOf db cid,
      ∃ p, findProduct db it.productId = some p ∧ ¬p.stock < it.quantity) :
    ∀ p' ∈ stockAdd db.products (fun j => -qtyInCart (itemsOf db cid) j), 0 ≤ p'.stock := by
  intro p' hp'
  unfold stockAdd at hp'
  obtain ⟨p, hp, rfl⟩ := List.mem_map.mp hp'
  simp only
  by_cases hex : ∃ it ∈ itemsOf db cid, it.productId = p.pid
  · obtain ⟨it, hit, hpid⟩ := hex
    rw [qtyInCart_single hnd hit hpid]
    obtain ⟨q, hq, hlt⟩ := hok it hit
    have hfp : findProduct db it.productId = some p := by
      rw [hpid]
      exact findProduct_self db v2 hp
    injection hfp.symm.trans hq with hqp
    subst hqp
    omega
  · push_neg at hex
    rw [qtyInCart_zero hex]
    have := v1 p hp
    omega

theorem qtyInCart_zero_of_missing {db : DB} {items : List CartItem} {pid : Nat}
    (hok : ∀ it ∈ items, ∃ p, findProduct db it.productId = some p)
    (hmiss : findProduct db pid = none) : qtyInCart items pid = 0 := by
  apply qtyInCart_zero
  intro it hit he
  obtain ⟨p, hp⟩ := hok it hit
  rw [he, hmiss] at hp
  cases hp

theorem qtyInOrder_zero_of_missing {db : DB} {items : List OrderItem} {pid : Nat}
    (hok : ∀ oi ∈ items, ∃ p ∈ db.products, p.pid = oi.productId)
    (hmiss : findProduct db pid = none) : qtyInOrder items pid = 0 := by
  apply qtyInOrder_zero
  intro oi hoi he
  obtain ⟨p, hp, hpid⟩ := hok oi hoi
  have hnone := List.find?_eq_none.mp hmiss p hp
  simp [hpid, he] at hnone

theorem cancelledQty_update {l : List Order} {oid : Nat} {ord : Order} (pid : Nat)
    (hnd : (l.map Order.oid).Nodup) (hmem : ord ∈ l) (hoid : ord.oid = oid)
    (hnc : ord.status ≠ OrderStatus.cancelled) :
    ((l.map (fun o => if o.oid == oid then { o with status := OrderStatus.cancelled } else o)).map
        (fun o => if o.status = OrderStatus.cancelled then qtyInOrder o.items pid else 0)).sum
      = (l.map (fun o => if o.status = OrderStatus.cancelled then qtyInOrder o.items pid else 0)).sum
        + qtyInOrder ord.items pid := by
  induction l with
  | nil => cases hmem
  | cons o rest ih =>
    simp only [List.map_cons, List.nodup_cons] at hnd
    rcases List.mem_cons.mp hmem with rfl | hm
    · have hbeq : (ord.oid == oid) = true := by simpa using hoid
      have htail : rest.map (fun o =>
          if o.oid == oid then { o with status := OrderStatus.cancelled } else o) = rest := by
        refine (List.map_congr_left (fun x hx => ?_)).trans (List.map_id rest)
        have hx' : ¬((x.oid == oid) = true) := by
          simp only [beq_iff_eq]
          intro he
          apply hnd.1
          rw [hoid]
          exact he ▸ List.mem_map_of_mem Order.oid hx
        rw [if_neg hx']
        rfl
      have hhead : (if (ord.oid == oid) = true
            then { ord with status := OrderStatus.cancelled } else ord)
          = { ord with status := OrderStatus.cancelled } := if_pos hbeq
      simp only [List.map_cons, List.sum_cons, hhead, htail]
      rw [if_pos trivial, if_neg hnc]
      ring
    · have ho : (o.oid == oid) = false := by
        refine beq_eq_false_iff_ne.mpr ?_
        intro he
        apply hnd.1
        rw [he, ← hoid]
        exact List.mem_map_of_mem Order.oid hm
      simp only [List.map_cons, List.sum_cons, ho, Bool.false_eq_true, if_false]
      rw [ih hnd.2 hm]
      ring

theorem place_step {db db' : DB} {uid : Nat} {data : CreateOrderInput} {ord : Order}
    (v : ValidDB db) (h : placeOrder db uid data = .ok (db', ord)) :
    ValidDB db' ∧ Acc db db' := by
  obtain ⟨cart, addr, oitems, hc, hne, hok, ha, hshape, hord, hdb'⟩ := placeOrder_ok_char h
  have hnd : ((itemsOf db cart.id).map CartItem.productId).Nodup :=
    itemsOf_pids_nodup v.cartItems_nodup cart.id
  have hitems : ord.items = oitems := by rw [hord]; rfl
  have hqty : ∀ j, qtyInOrder ord.items j = qtyInCart (itemsOf db cart.id) j := by
    intro j
    rw [hitems]
    exact qtyInOrder_eq_qtyInCart hshape j
  have hordoid : ord.oid = db.nextId := by rw [hord]; rfl
  have hordstatus : ord.status = OrderStatus.pending := by rw [hord]; rfl
  subst hdb'
  constructor
  · constructor
    · exact place_stocks_nonneg v.stocks_nonneg v.products_nodup hnd hok
    · have := stockAdd_pids db.products (fun j => -qtyInCart (itemsOf db cart.id) j)
      dsimp only
      rw [this]
      exact v.products_nodup
    · exact v.cartItems_nodup.sublist (List.filter_sublist _)
    · intro it hit
      exact v.cartItems_pos it (List.mem_of_mem_filter hit)
    · dsimp only
      rw [List.map_append, List.nodup_append]
      refine ⟨v.orders_nodup, by simp, ?_⟩
      intro x hx hx'
      simp only [List.map_cons, List.map_nil, List.mem_singleton] at hx'
      obtain ⟨o, ho, rfl⟩ := List.mem_map.mp hx
      have h1 := v.orders_fresh o ho
      rw [hx', hordoid] at h1
      exact lt_irrefl _ h1
    · intro o ho
      dsimp only at ho ⊢
      rcases List.mem_append.mp ho with hm | hm
      · have := v.orders_fresh o hm
        omega
      · rw [List.mem_singleton.mp hm, hordoid]
        omega
    · intro o ho oi hoi
      dsimp only at ho
      rcases List.mem_append.mp ho with hm | hm
      · exact v.orders_qty_nonneg o hm oi hoi
      · rw [List.mem_singleton.mp hm] at hoi
        rw [hitems] at hoi
        have hpair : (oi.productId, oi.quantity) ∈
            (itemsOf db cart.id).map (fun it => (it.productId, it.quantity)) := by
          rw [← hshape]
          exact List.mem_map_of_mem _ hoi
        obtain ⟨it, hit, hpq⟩ := List.mem_map.mp hpair
        have h1 := v.cartItems_pos it (List.mem_of_mem_filter hit)
        have h2 : it.quantity = oi.quantity := congrArg Prod.snd hpq
        omega
  · intro pid
    have hsa := stockOf_stockAdd db (fun j => -qtyInCart (itemsOf db cart.id) j) pid
    have hst : stockOf
        { db with products := stockAdd db.products (fun j => -qtyInCart (itemsOf db cart.id) j),
                  orders := db.orders ++ [ord],
                  cartItems := db.cartItems.filter (fun it => it.cartId != cart.id),
                  nextId := db.nextId + 1 } pid
        = stockOf db pid - qtyInCart (itemsOf db cart.id) pid := by
      cases hf : findProduct db pid with
      | some p =>
        rw [hf] at hsa
        simp only [Option.isSome_some, if_true] at hsa
        rw [show stockOf
            { db with products := stockAdd db.products (fun j => -qtyInCart (itemsOf db cart.id) j),
                      orders := db.orders ++ [ord],
                      cartItems := db.cartItems.filter (fun it => it.cartId != cart.id),
                      nextId := db.nextId + 1 } pid
          = stockOf { db with
              products := stockAdd db.products (fun j => -qtyInCart (itemsOf db cart.id) j) } pid
          from rfl]
        rw [hsa]
        omega
      | none =>
        have hz : qtyInCart (itemsOf db cart.id) pid = 0 :=
          qtyInCart_zero_of_missing
            (fun it hit => ⟨(hok it hit).choose, (hok it hit).choose_spec.1⟩) hf
        rw [hf] at hsa
        simp only [Option.isSome_none, Bool.false_eq_true, if_false] at hsa
        rw [show stockOf
            { db with products := stockAdd db.products (fun j => -qtyInCart (itemsOf db cart.id) j),
                      orders := db.orders ++ [ord],
                      cartItems := db.cartItems.filter (fun it => it.cartId != cart.id),
                      nextId := db.nextId + 1 } pid
          = stockOf { db with
              products := stockAdd db.products (fun j => -qtyInCart (itemsOf db cart.id) j) } pid
          from rfl]
        rw [hsa, hz]
        omega
    have hplaced : placedQty
        { db with products := stockAdd db.products (fun j => -qtyInCart (itemsOf db cart.id) j),
                  orders := db.orders ++ [ord],
                  cartItems := db.cartItems.filter (fun it => it.cartId != cart.id),
                  nextId := db.nextId + 1 } pid
        = placedQty db pid + qtyInOrder ord.items pid := by
      unfold placedQty
      dsimp only
      rw [List.map_append, List.sum_append]
      simp
    have hcanc : cancelledQty
        { db with products := stockAdd db.products (fun j => -qtyInCart (itemsOf db cart.id) j),
                  orders := db.orders ++ [ord],
                  cartItems := db.cartItems.filter (fun it => it.cartId != cart.id),
                  nextId := db.nextId + 1 } pid
        = cancelledQty db pid := by
      unfold cancelledQty
      dsimp only
      rw [List.map_append, List.sum_append]
      simp only [List.map_cons, List.map_nil, List.sum_cons, List.sum_nil]
      rw [if_neg (by rw [hordstatus]; intro hcon; cases hcon)]
      omega
    rw [hst, hplaced, hcanc, hqty pid]
    omega

theorem cancel_step {db db' : DB} {uid oid : Nat} {ord' : Order}
    (v : ValidDB db) (h : cancelOrder db uid oid = .ok (db', ord')) :
    ValidDB db' ∧ Acc db db' := by
  obtain ⟨ord, hf, hp, hex, hord', hdb'⟩ := cancelOrder_ok_char h
  have hmem : ord ∈ db.orders := List.mem_of_find?_eq_some hf
  have hfs := List.find?_some hf
  simp only [Bool.and_eq_true, beq_iff_eq] at hfs
  have hoid : ord.oid = oid := hfs.1
  have hqnn : ∀ oi ∈ ord.items, 0 ≤ oi.quantity := v.orders_qty_nonneg ord hmem
  have hmapoid : (db.orders.map (fun o =>
      if o.oid == oid then { o with status := OrderStatus.cancelled } else o)).map Order.oid
      = db.orders.map Order.oid := by
    rw [List.map_map]
    refine List.map_congr_left (fun o _ => ?_)
    by_cases hc : (o.oid == oid) = true
    · simp [Function.comp, hc]
    · simp [Function.comp, hc]
  subst hdb'
  constructor
  · constructor
    · intro p' hp'
      have hp'' : p' ∈ stockAdd db.products (fun j => qtyInOrder ord.items j) := hp'
      unfold stockAdd at hp''
      obtain ⟨p, hpm, rfl⟩ := List.mem_map.mp hp''
      have h1 := v.stocks_nonneg p hpm
      have h2 := qtyInOrder_nonneg hqnn p.pid
      simp only
      omega
    · have := stockAdd_pids db.products (fun j => qtyInOrder ord.items j)
      dsimp only
      rw [this]
      exact v.products_nodup
    · exact v.cartItems_nodup
    · exact v.cartItems_pos
    · dsimp only
      rw [hmapoid]
      exact v.orders_nodup
    · intro o ho
      dsimp only at ho ⊢
      obtain ⟨o0, ho0, rfl⟩ := List.mem_map.mp ho
      have h1 := v.orders_fresh o0 ho0
      by_cases hc : (o0.oid == oid) = true
      · rw [if_pos hc]
        exact h1
      · rw [if_neg hc]
        exact h1
    · intro o ho oi hoi
      dsimp only at ho
      obtain ⟨o0, ho0, rfl⟩ := List.mem_map.mp ho
      by_cases hc : (o0.oid == oid) = true
      · rw [if_pos hc] at hoi
        exact v.orders_qty_nonneg o0 ho0 oi hoi
      · rw [if_neg hc] at hoi
        exact v.orders_qty_nonneg o0 ho0 oi hoi
  · intro pid
    have hsa := stockOf_stockAdd db (fun j => qtyInOrder ord.items j) pid
    have hst : stockOf
        { db with products := stockAdd db.products (fun j => qtyInOrder ord.items j),
                  orders := db.orders.map (fun o =>
                    if o.oid == oid then { o with status := OrderStatus.cancelled } else o) } pid
        = stockOf db pid + qtyInOrder ord.items pid := by
      cases hfp : findProduct db pid with
      | some p =>
        rw [hfp] at hsa
        simp only [Option.isSome_some, if_true] at hsa
        rw [show stockOf
            { db with products := stockAdd db.products (fun j => qtyInOrder ord.items j),
                      orders := db.orders.map (fun o =>
                        if o.oid == oid then { o with status := OrderStatus.cancelled } else o) } pid
          = stockOf { db with
              products := stockAdd db.products (fun j => qtyInOrder ord.items j) } pid from rfl]
        rw [hsa]
      | none =>
        have hz : qtyInOrder ord.items pid = 0 := qtyInOrder_zero_of_missing hex hfp
        rw [hfp] at hsa
        simp only [Option.isSome_none, Bool.false_eq_true, if_false] at hsa
        rw [show stockOf
            { db with products := stockAdd db.products (fun j => qtyInOrder ord.items j),
                      orders := db.orders.map (fun o =>
                        if o.oid == oid then { o with status := OrderStatus.cancelled } else o) } pid
          = stockOf { db with
              products := stockAdd db.products (fun j => qtyInOrder ord.items j) } pid from rfl]
        rw [hsa, hz]
    have hplaced : placedQty
        { db with products := stockAdd db.products (fun j => qtyInOrder ord.items j),
                  orders := db.orders.map (fun o =>
                    if o.oid == oid then { o with status := OrderStatus.cancelled } else o) } pid
        = placedQty db pid := by
      unfold placedQty
      dsimp only
      rw [List.map_map]
      refine congrArg List.sum (List.map_congr_left (fun o _ => ?_))
      by_cases hc : (o.oid == oid) = true
      · simp [Function.comp, hc]
      · simp [Function.comp, hc]
    have hcanc : cancelledQty
        { db with products := stockAdd db.products (fun j => qtyInOrder ord.items j),
                  orders := db.orders.map (fun o =>
                    if o.oid == oid then { o with status := OrderStatus.cancelled } else o) } pid
        = cancelledQty db pid + qtyInOrder ord.items pid := by
      unfold cancelledQty
      dsimp only
      exact cancelledQty_update pid v.orders_nodup hmem hoid
        (by rw [hp]; intro hcon; cases hcon)
    rw [hst, hplaced, hcanc]
    omega

theorem stepOp_step {db : DB} (op : Op) (v : ValidDB db) :
    ValidDB (stepOp db op) ∧ Acc db (stepOp db op) := by
  cases op with
  | place uid data =>
    cases h : placeOrder db uid data with
    | error e =>
      have hs : stepOp db (Op.place uid data) = db := by simp only [stepOp, h]
      rw [hs]
      exact ⟨v, Acc_refl db⟩
    | ok r =>
      obtain ⟨db', ord⟩ := r
      have hs : stepOp db (Op.place uid data) = db' := by simp only [stepOp, h]
      rw [hs]
      exact ⟨(place_step v h).1, (place_step v h).2⟩
  | cancel uid oid =>
    cases h : cancelOrder db uid oid with
    | error e =>
      have hs : stepOp db (Op.cancel uid oid) = db := by simp only [stepOp, h]
      rw [hs]
      exact ⟨v, Acc_refl db⟩
    | ok r =>
      obtain ⟨db', ord⟩ := r
      have hs : stepOp db (Op.cancel uid oid) = db' := by simp only [stepOp, h]
      rw [hs]
      exact ⟨(cancel_step v h).1, (cancel_step v h).2⟩

theorem runOps_valid_acc (db0 : DB) (v : ValidDB db0) (ops : List Op) :
    ValidDB (runOps db0 ops) ∧ Acc db0 (runOps db0 ops) := by
  induction ops generalizing db0 with
  | nil => exact ⟨v, Acc_refl db0⟩
  | cons op rest ih =>
    have h1 := stepOp_step op v
    have h2 := ih (stepOp db0 op) h1.1
    exact ⟨h2.1, Acc_trans h1.2 h2.2⟩

/-! ### Cart service lemmas -/

theorem find?_map_pred {α : Type} (l : List α) (f : α → α) (pred : α → Bool)
    (hf : ∀ x, pred (f x) = pred x) : (l.map f).find? pred = (l.find? pred).map f := by
  induction l with
  | nil => rfl
  | cons x rest ih =>
    simp only [List.map_cons, List.find?_cons, hf x]
    cases hb : pred x
    · simpa using ih
    · simp

theorem find?_append_none {α : Type} {l₁ : List α} (l₂ : List α) {p : α → Bool}
    (h : l₁.find? p = none) : (l₁ ++ l₂).find? p = l₂.find? p := by
  induction l₁ with
  | nil => rfl
  | cons x rest ih =>
    cases hb : p x
    · simp only [List.find?_cons, hb] at h
      simp only [List.cons_append, List.find?_cons, hb]
      exact ih h
    · simp only [List.find?_cons, hb] at h
      cases h

theorem foldl_add_map {α β : Type} [AddCommMonoid β] (f : α → β) (l : List α) (a : β) :
    l.foldl (fun s x => s + f x) a = a + (l.map f).sum := by
  induction l generalizing a with
  | nil => simp
  | cons x rest ih =>
    simp only [List.foldl_cons, List.map_cons, List.sum_cons, ih]
    rw [← add_assoc]

theorem jsOr_eq_nullish {dp : Option ℚ} {price : ℚ}
    (h : dp = none ∨ ∃ d, dp = some d ∧ 0 < d) : jsOr dp price = nullish dp price := by
  rcases h with rfl | ⟨d, rfl, hd⟩
  · rfl
  · show (if d = 0 then price else d) = d
    rw [if_neg hd.ne']

theorem lineView_ok_char {db : DB} {it : CartItem} {v : CartLineView}
    (h : lineView db it = .ok v) :
    ∃ p, findProduct db it.productId = some p ∧
      v = { id := it.id, productId := it.productId, quantity := it.quantity,
            unitPrice := nullish p.discountPrice p.price,
            subtotal := round2 (nullish p.discountPrice p.price * (it.quantity : ℚ)),
            savings := match p.discountPrice with
              | none => 0
              | some d => if d = 0 then 0 else round2 ((p.price - d) * (it.quantity : ℚ)) } := by
  unfold lineView at h
  cases hg : getProduct db it.productId with
  | error e => simp only [hg] at h; cases h
  | ok p =>
    simp only [hg] at h
    injection h with h
    exact ⟨p, getProduct_ok_iff.mp hg, h.symm⟩

theorem lineView_ok_of {db : DB} {it : CartItem} {p : Product}
    (hp : findProduct db it.productId = some p) :
    lineView db it = .ok
      { id := it.id, productId := it.productId, quantity := it.quantity,
        unitPrice := nullish p.discountPrice p.price,
        subtotal := round2 (nullish p.discountPrice p.price * (it.quantity : ℚ)),
        savings := match p.discountPrice with
          | none => 0
          | some d => if d = 0 then 0 else round2 ((p.price - d) * (it.quantity : ℚ)) } := by
  unfold lineView
  simp only [getProduct_ok_iff.mpr hp]

theorem lineViews_ok_unitSum {db : DB} {items : List CartItem} {vs : List CartLineView}
    (h : lineViews db items = .ok vs) :
    (vs.map (fun v => v.unitPrice * (v.quantity : ℚ))).sum =
      (items.map (fun it => unitOfCart db it.productId * (it.quantity : ℚ))).sum := by
  induction items generalizing vs with
  | nil =>
    simp only [lineViews] at h
    injection h with h
    subst h
    rfl
  | cons it rest ih =>
    simp only [lineViews] at h
    cases hv : lineView db it with
    | error e => simp only [hv] at h; cases h
    | ok v =>
      simp only [hv] at h
      cases hr : lineViews db rest with
      | error e => simp only [hr] at h; cases h
      | ok tail =>
        simp only [hr] at h
        injection h with h
        subst h
        obtain ⟨p, hp, hveq⟩ := lineView_ok_char hv
        simp only [List.map_cons, List.sum_cons, ih hr, hveq]
        have hu : unitOfCart db it.productId = nullish p.discountPrice p.price := by
          unfold unitOfCart
          rw [hp]
        rw [hu]

theorem lineViews_isOk {db : DB} {items : List CartItem}
    (hall : ∀ it ∈ items, ∃ p, findProduct db it.productId = some p) :
    ∃ vs, lineViews db items = .ok vs := by
  induction items with
  | nil => exact ⟨[], rfl⟩
  | cons it rest ih =>
    obtain ⟨p, hp⟩ := hall it (List.mem_cons_self it rest)
    obtain ⟨tail, htail⟩ := ih (fun x hx => hall x (List.mem_cons_of_mem it hx))
    refine ⟨{ id := it.id, productId := it.productId, quantity := it.quantity,
              unitPrice := nullish p.discountPrice p.price,
              subtotal := round2 (nullish p.discountPrice p.price * (it.quantity : ℚ)),
              savings := match p.discountPrice with
                | none => 0
                | some d => if d = 0 then 0
                  else round2 ((p.price - d) * (it.quantity : ℚ)) } :: tail, ?_⟩
    simp only [lineViews, lineView_ok_of hp, htail]

theorem lineViews_mem_char {db : DB} {items : List CartItem} {vs : List CartLineView}
    (h : lineViews db items = .ok vs) :
    ∀ v ∈ vs, ∃ it ∈ items, ∃ p, findProduct db it.productId = some p ∧
      v.quantity = it.quantity ∧
      v.unitPrice = nullish p.discountPrice p.price ∧
      v.subtotal = round2 (nullish p.discountPrice p.price * (it.quantity : ℚ)) ∧
      v.savings = (match p.discountPrice with
        | none => (0 : ℚ)
        | some d => if d = 0 then 0 else round2 ((p.price - d) * (it.quantity : ℚ))) := by
  induction items generalizing vs with
  | nil =>
    simp only [lineViews] at h
    injection h with h
    subst h
    intro v hv
    cases hv
  | cons it rest ih =>
    simp only [lineViews] at h
    cases hv : lineView db it with
    | error e => simp only [hv] at h; cases h
    | ok v0 =>
      simp only [hv] at h
      cases hr : lineViews db rest with
      | error e => simp only [hr] at h; cases h
      | ok tail =>
        simp only [hr] at h
        injection h with h
        subst h
        intro v hvm
        rcases List.mem_cons.mp hvm with rfl | hm
        · obtain ⟨p, hp, hveq⟩ := lineView_ok_char hv
          exact ⟨it, List.mem_cons_self it rest, p, hp, by rw [hveq], by rw [hveq],
            by rw [hveq], by rw [hveq]⟩
        · obtain ⟨it', hit', rest'⟩ := ih hr v hm
          exact ⟨it', List.mem_cons_of_mem it hit', rest'⟩

theorem buildCartResponse_ok_char {db : DB} {cart : CartRow} {resp : CartResponse}
    (h : buildCartResponse db cart = .ok resp) :
    ∃ vs, lineViews db (itemsOf db cart.id) = .ok vs ∧ resp.items = vs ∧
      resp.cartId = cart.id ∧ resp.guestCartId = cart.guestCartId ∧
      resp.summary.totalItems = (vs.map CartLineView.quantity).sum ∧
      resp.summary.subtotal = round2 ((vs.map CartLineView.subtotal).sum) ∧
      resp.summary.totalSavings = round2 ((vs.map CartLineView.savings).sum) := by
  unfold buildCartResponse at h
  cases hl : lineViews db (itemsOf db cart.id) with
  | error e => simp only [hl] at h; cases h
  | ok vs =>
    simp only [hl] at h
    injection h with h
    subst h
    refine ⟨vs, rfl, rfl, rfl, rfl, ?_, ?_, ?_⟩
    · show vs.foldl (fun s v => s + v.quantity) 0 = _
      rw [foldl_add_map CartLineView.quantity vs 0, zero_add]
    · show round2 (vs.foldl (fun s v => s + v.subtotal) 0) = _
      rw [foldl_add_map CartLineView.subtotal vs 0, zero_add]
    · show round2 (vs.foldl (fun s v => s + v.savings) 0) = _
      rw [foldl_add_map CartLineView.savings vs 0, zero_add]

theorem mergeStep_inactive {u : Nat} {db : DB} {g : CartItem} {p : Product}
    (hp : findProduct db g.productId = some p) (hs : p.status ≠ PStatus.active) :
    mergeStep u db g = .ok db := by
  unfold mergeStep
  simp only [getProduct_ok_iff.mpr hp]
  rw [if_pos hs]

theorem mergeStep_lowstock {u : Nat} {db : DB} {g : CartItem} {p : Product}
    (hp : findProduct db g.productId = some p) (hs : p.status = PStatus.active)
    (hq : min g.quantity p.stock < 1) :
    mergeStep u db g = .ok db := by
  unfold mergeStep
  simp only [getProduct_ok_iff.mpr hp]
  rw [if_neg (by simp [hs]), if_pos hq]

theorem mergeStep_conflict {u : Nat} {db : DB} {g : CartItem} {p : Product} {ex : CartItem}
    (hp : findProduct db g.productId = some p) (hs : p.status = PStatus.active)
    (hq : ¬min g.quantity p.stock < 1)
    (hex : db.cartItems.find? (fun it => it.cartId == u && it.productId == g.productId)
      = some ex) :
    mergeStep u db g = .ok
      { db with cartItems := db.cartItems.map (fun it =>
          if it.id == ex.id
          then { it with quantity := min (max ex.quantity g.quantity) p.stock }
          else it) } ∧
    userLineQty
      { db with cartItems := db.cartItems.map (fun it =>
          if it.id == ex.id
          then { it with quantity := min (max ex.quantity g.quantity) p.stock }
          else it) } u g.productId = some (min (max ex.quantity g.quantity) p.stock) := by
  constructor
  · unfold mergeStep
    simp only [getProduct_ok_iff.mpr hp]
    rw [if_neg (by simp [hs]), if_neg hq]
    simp only [hex]
  · unfold userLineQty
    have hmap := find?_map_pred db.cartItems
      (fun it => if it.id == ex.id
        then { it with quantity := min (max ex.quantity g.quantity) p.stock } else it)
      (fun it => it.cartId == u && it.productId == g.productId)
      (fun x => by by_cases hc : (x.id == ex.id) = true <;> simp [hc])
    dsimp only
    rw [hmap, hex]
    simp

theorem mergeStep_new {u : Nat} {db : DB} {g : CartItem} {p : Product}
    (hp : findProduct db g.productId = some p) (hs : p.status = PStatus.active)
    (hq : ¬min g.quantity p.stock < 1)
    (hnone : db.cartItems.find? (fun it => it.cartId == u && it.productId == g.productId)
      = none) :
    mergeStep u db g = .ok
      { db with
          cartItems := db.cartItems ++
            [{ id := db.nextId, cartId := u, productId := g.productId,
               quantity := min g.quantity p.stock }],
          nextId := db.nextId + 1 } ∧
    userLineQty
      { db with
          cartItems := db.cartItems ++
            [{ id := db.nextId, cartId := u, productId := g.productId,
               quantity := min g.quantity p.stock }],
          nextId := db.nextId + 1 } u g.productId = some (min g.quantity p.stock) := by
  constructor
  · unfold mergeStep
    simp only [getProduct_ok_iff.mpr hp]
    rw [if_neg (by simp [hs]), if_neg hq]
    simp only [hnone]
  · unfold userLineQty
    dsimp only
    rw [find?_append_none _ hnone]
    simp [List.find?_cons]

theorem mergeStep_fields {u : Nat} {db db1 : DB} {g : CartItem}
    (h : mergeStep u db g = .ok db1) :
    db1.carts = db.carts ∧ db1.products = db.products ∧ db1.orders = db.orders ∧
    db1.addresses = db.addresses ∧ db.nextId ≤ db1.nextId ∧
    (∀ it ∈ db1.cartItems, (∃ it0 ∈ db.cartItems, it.cartId = it0.cartId) ∨ it.cartId = u) := by
  unfold mergeStep at h
  cases hg : getProduct db g.productId with
  | error e => simp only [hg] at h; cases h
  | ok p =>
    simp only [hg] at h
    by_cases hs : p.status ≠ PStatus.active
    · rw [if_pos hs] at h
      injection h with h
      subst h
      exact ⟨rfl, rfl, rfl, rfl, le_refl _, fun it hit => .inl ⟨it, hit, rfl⟩⟩
    · rw [if_neg hs] at h
      by_cases hq : min g.quantity p.stock < 1
      · rw [if_pos hq] at h
        injection h with h
        subst h
        exact ⟨rfl, rfl, rfl, rfl, le_refl _, fun it hit => .inl ⟨it, hit, rfl⟩⟩
      · rw [if_neg hq] at h
        cases hex : db.cartItems.find?
            (fun it => it.cartId == u && it.productId == g.productId) with
        | some ex =>
          simp only [hex] at h
          injection h with h
          subst h
          refine ⟨rfl, rfl, rfl, rfl, le_refl _, ?_⟩
          intro it hit
          obtain ⟨it0, hit0, rfl⟩ := List.mem_map.mp hit
          by_cases hc : (it0.id == ex.id) = true
          · rw [if_pos hc]
            exact .inl ⟨it0, hit0, rfl⟩
          · rw [if_neg hc]
            exact .inl ⟨it0, hit0, rfl⟩
        | none =>
          simp only [hex] at h
          injection h with h
          subst h
          refine ⟨rfl, rfl, rfl, rfl, Nat.le_succ _, ?_⟩
          intro it hit
          rcases List.mem_append.mp hit with hm | hm
          · exact .inl ⟨it, hm, rfl⟩
          · right
            rw [List.mem_singleton.mp hm]

theorem mergeLoop_fields {u : Nat} {gs : List CartItem} {db db2 : DB}
    (h : mergeLoop u db gs = .ok db2) :
    db2.carts = db.carts ∧ db2.products = db.products ∧ db2.orders = db.orders ∧
    db2.addresses = db.addresses ∧ db.nextId ≤ db2.nextId ∧
    (∀ it ∈ db2.cartItems, (∃ it0 ∈ db.cartItems, it.cartId = it0.cartId) ∨ it.cartId = u) := by
  induction gs generalizing db with
  | nil =>
    simp only [mergeLoop] at h
    injection h with h
    subst h
    exact ⟨rfl, rfl, rfl, rfl, le_refl _, fun it hit => .inl ⟨it, hit, rfl⟩⟩
  | cons g rest ih =>
    simp only [mergeLoop] at h
    cases hs : mergeStep u db g with
    | error e => rw [hs] at h; cases h
    | ok db1 =>
      rw [hs] at h
      obtain ⟨f1, f2, f3, f4, f5, f6⟩ := mergeStep_fields hs
      obtain ⟨g1, g2, g3, g4, g5, g6⟩ := ih h
      refine ⟨g1.trans f1, g2.trans f2, g3.trans f3, g4.trans f4, le_trans f5 g5, ?_⟩
      intro it hit
      rcases g6 it hit with ⟨it0, hit0, he⟩ | he
      · rcases f6 it0 hit0 with ⟨it1, hit1, he'⟩ | he'
        · exact .inl ⟨it1, hit1, he.trans he'⟩
        · exact .inr (he.trans he')
      · exact .inr he

theorem stockOf_products_eq {a b : DB} (h : b.products = a.products) (pid : Nat) :
    stockOf b pid = stockOf a pid := by
  unfold stockOf findProduct
  rw [h]

theorem stockOf_decrement {db R : DB} {items : List CartItem}
    (hR : R.products = stockAdd db.products (fun j => -qtyInCart items j))
    (hok : ∀ it ∈ items, ∃ p, findProduct db it.productId = some p) (pid : Nat) :
    stockOf R pid = stockOf db pid - qtyInCart items pid := by
  have h1 : stockOf R pid =
      stockOf { db with products := stockAdd db.products (fun j => -qtyInCart items j) } pid :=
    stockOf_products_eq hR pid
  rw [h1, stockOf_stockAdd]
  cases hf : findProduct db pid with
  | some p =>
    simp only [Option.isSome_some, if_true]
    omega
  | none =>
    rw [qtyInCart_zero_of_missing hok hf]
    simp

theorem stockOf_increment {db R : DB} {items : List OrderItem}
    (hR : R.products = stockAdd db.products (fun j => qtyInOrder items j))
    (hex : ∀ oi ∈ items, ∃ p ∈ db.products, p.pid = oi.productId) (pid : Nat) :
    stockOf R pid = stockOf db pid + qtyInOrder items pid := by
  have h1 : stockOf R pid =
      stockOf { db with products := stockAdd db.products (fun j => qtyInOrder items j) } pid :=
    stockOf_products_eq hR pid
  rw [h1, stockOf_stockAdd]
  cases hf : findProduct db pid with
  | some p => simp
  | none =>
    rw [qtyInOrder_zero_of_missing hex hf]
    simp

/-! ### Claim theorems -/

/-- C1: `placeOrder` is atomic with respect to the stock check.  For any
user cart (whose lines reference existing products), if some line has
`product.stock < line.quantity`, then placement fails with
`InsufficientStock` naming an offending product, and the database is
unchanged: no stock decrement, no order row, and every cart line intact
(`stepOp` returns the original state). -/
theorem C1_placeOrder_insufficientStock_atomic
    {db : DB} {uid : Nat} {data : CreateOrderInput} {cart : CartRow}
    (hc : db.carts.find? (fun c => c.userId == some uid) = some cart)
    (hall : ∀ it ∈ itemsOf db cart.id, (findProduct db it.productId).isSome = true)
    (hbad : ∃ it ∈ itemsOf db cart.id, stockOf db it.productId < it.quantity) :
    (∃ it ∈ itemsOf db cart.id, ∃ p, findProduct db it.productId = some p ∧
      p.stock < it.quantity ∧
      placeOrder db uid data = .error (.insufficientStock p.name)) ∧
    stepOp db (.place uid data) = db := by
  have hall' : ∀ it ∈ itemsOf db cart.id, ∃ p, findProduct db it.productId = some p := by
    intro it hit
    exact Option.isSome_iff_exists.mp (hall it hit)
  have hbad' : ∃ it ∈ itemsOf db cart.id, ∃ p, findProduct db it.productId = some p ∧
      p.stock < it.quantity := by
    obtain ⟨it, hit, hlt⟩ := hbad
    obtain ⟨p, hp⟩ := hall' it hit
    refine ⟨it, hit, p, hp, ?_⟩
    unfold stockOf at hlt
    rw [hp] at hlt
    exact hlt
  obtain ⟨it, hit, p, hp, hlt, herr⟩ := validateAndSubtotal_insufficient 0 hall' hbad'
  have hne : ¬(itemsOf db cart.id).isEmpty = true := by
    intro he
    rw [List.isEmpty_iff.mp he] at hit
    cases hit
  have hplace : placeOrder db uid data = .error (.insufficientStock p.name) := by
    simp only [placeOrder, hc]
    rw [if_neg hne, herr]
  refine ⟨⟨it, hit, p, hp, hlt, hplace⟩, ?_⟩
  simp only [stepOp, hplace]

/-- C1 witness: the §8 insufficient-stock scenario (cart qty 5, stock 3)
instantiates `C1_placeOrder_insufficientStock_atomic`. -/
theorem C1_placeOrder_insufficientStock_atomic_witness :
    (∃ it ∈ itemsOf dbShort cartU1.id, ∃ p, findProduct dbShort it.productId = some p ∧
      p.stock < it.quantity ∧
      placeOrder dbShort 1 inpNormal = .error (.insufficientStock p.name)) ∧
    stepOp dbShort (.place 1 inpNormal) = dbShort :=
  C1_placeOrder_insufficientStock_atomic
    (by with_unfolding_all decide) (by with_unfolding_all decide) (by with_unfolding_all decide)

/-- C2 counterexample: the claim computes the subtotal with
"discountPrice if present else price" (the `??` rule), but on a cart
whose product has `discountPrice = 0` and `price = 50` the code's `||`
rule charges 50, not the 0 the claim's formula predicts. -/
theorem C2_placeOrder_happy_path_counterexample :
    (placeOrder dbZeroDisc 1 inpNormal).map (fun r => r.2.totalAmount) = .ok 50 ∧
    (itemsOf dbZeroDisc cartU1.id).map
      (fun it => unitOfCart dbZeroDisc it.productId * (it.quantity : ℚ)) = [0] ∧
    (50 : ℚ) ≠ 0 := by
  refine ⟨by with_unfolding_all decide, by with_unfolding_all decide, by norm_num⟩

/-- C2 (amended: the unit price is `discountPrice` when present and
non-zero, else `price` — the code's `||` rule): for every cart whose
lines all reference existing products and satisfy
`quantity ≤ stock`, and whose address id resolves, `placeOrder` succeeds
and produces an order with subtotal `Σ quantity × (discountPrice if
present and non-zero else price)`, shipping 180 for "express" and 120
otherwise, discount 0 regardless of coupon code, grandTotal
subtotal + shipping − discount, status and paymentStatus `pending`; each
product's stock is decremented by the ordered quantity, all cart lines
are deleted, and the cart row persists. -/
theorem C2_placeOrder_happy_path
    {db : DB} {uid : Nat} {data : CreateOrderInput} {cart : CartRow} {addr : Address}
    (hc : db.carts.find? (fun c => c.userId == some uid) = some cart)
    (hne : itemsOf db cart.id ≠ [])
    (hok : ∀ it ∈ itemsOf db cart.id, (findProduct db it.productId).isSome = true ∧
      it.quantity ≤ stockOf db it.productId)
    (ha : db.addresses.find? (fun a => a.aid == data.addressId) = some addr) :
    ∃ db' ord, placeOrder db uid data = .ok (db', ord) ∧
      ord.totalAmount = ((itemsOf db cart.id).map
        (fun it => unitOf db it.productId * (it.quantity : ℚ))).sum ∧
      ord.shippingAmount = (if data.deliveryOption = "express" then (180 : ℚ) else 120) ∧
      ord.discountAmount = 0 ∧
      ord.grandTotal = ord.totalAmount + ord.shippingAmount - ord.discountAmount ∧
      ord.status = OrderStatus.pending ∧
      ord.paymentStatus = PayStatus.pending ∧
      (∀ pid, stockOf db' pid = stockOf db pid - qtyInCart (itemsOf db cart.id) pid) ∧
      itemsOf db' cart.id = [] ∧
      db'.carts = db.carts := by
  have hok' : ∀ it ∈ itemsOf db cart.id,
      ∃ p, findProduct db it.productId = some p ∧ ¬p.stock < it.quantity := by
    intro it hit
    obtain ⟨p, hp⟩ := Option.isSome_iff_exists.mp (hok it hit).1
    refine ⟨p, hp, ?_⟩
    have hle := (hok it hit).2
    have h2 : stockOf db it.productId = p.stock := by
      unfold stockOf
      rw [hp]
    omega
  obtain ⟨oitems, hshape, heq⟩ := placeOrder_ok_of hc hne hok' ha
  refine ⟨_, _, heq, ?_, rfl, rfl, ?_, rfl, rfl, ?_, ?_, rfl⟩
  · show subtotalSum db (itemsOf db cart.id) = _
    rfl
  · show subtotalSum db (itemsOf db cart.id) +
      (if data.deliveryOption = "express" then (180 : ℚ) else 120) - 0 = _
    rfl
  · intro pid
    exact stockOf_decrement rfl (fun it hit => ⟨(hok' it hit).choose, (hok' it hit).choose_spec.1⟩) pid
  · show (db.cartItems.filter (fun it => it.cartId != cart.id)).filter
      (fun it => it.cartId == cart.id) = []
    rw [List.filter_filter]
    apply List.filter_eq_nil_iff.mpr
    intro it hit
    simp

/-- C2 witness: the §8 happy-path scenario (qty 2, price 50,
discountPrice 40, stock 10, deliveryOption "normal") instantiates
`C2_placeOrder_happy_path`; evaluating the conclusion gives
subtotal 80, shipping 120, grandTotal 200, stock(A) = 8, cart emptied. -/
theorem C2_placeOrder_happy_path_witness :
    (∃ db' ord, placeOrder dbHappy 1 inpNormal = .ok (db', ord) ∧
      ord.totalAmount = ((itemsOf dbHappy cartU1.id).map
        (fun it => unitOf dbHappy it.productId * (it.quantity : ℚ))).sum ∧
      ord.shippingAmount = (if inpNormal.deliveryOption = "express" then (180 : ℚ) else 120) ∧
      ord.discountAmount = 0 ∧
      ord.grandTotal = ord.totalAmount + ord.shippingAmount - ord.discountAmount ∧
      ord.status = OrderStatus.pending ∧
      ord.paymentStatus = PayStatus.pending ∧
      (∀ pid, stockOf db' pid = stockOf dbHappy pid - qtyInCart (itemsOf dbHappy cartU1.id) pid) ∧
      itemsOf db' cartU1.id = [] ∧
      db'.carts = dbHappy.carts) ∧
    ((itemsOf dbHappy cartU1.id).map
      (fun it => unitOf dbHappy it.productId * (it.quantity : ℚ))).sum = 80 ∧
    (placeOrder dbHappy 1 inpNormal).map (fun r => stockOf r.1 1) = .ok 8 ∧
    (placeOrder dbHappy 1 inpNormal).map (fun r => r.2.grandTotal) = .ok 200 := by
  refine ⟨@C2_placeOrder_happy_path dbHappy 1 inpNormal cartU1 addrU1
      (by with_unfolding_all decide) (by with_unfolding_all decide)
      (by with_unfolding_all decide) (by with_unfolding_all decide),
    by with_unfolding_all decide, by with_unfolding_all decide, by with_unfolding_all decide⟩

/-- C5: `cancelOrder` fails `NotFound` when no order with the given id
belongs to the user; fails `InvalidState` when the found order's status
is not `pending`; on success it returns the order with status
`cancelled` and increments every ordered product's stock by the
corresponding snapshot quantity, fully; a second cancel of the same
order fails `InvalidState` and changes nothing. -/
theorem C5_cancelOrder_correct :
    (∀ (db : DB) (uid oid : Nat),
      db.orders.find? (fun o => o.oid == oid && o.userId == uid) = none →
      cancelOrder db uid oid = .error Err.orderNotFound) ∧
    (∀ (db : DB) (uid oid : Nat) (ord : Order),
      db.orders.find? (fun o => o.oid == oid && o.userId == uid) = some ord →
      ord.status ≠ OrderStatus.pending →
      cancelOrder db uid oid = .error Err.invalidState) ∧
    (∀ (db : DB) (uid oid : Nat) (ord : Order),
      db.orders.find? (fun o => o.oid == oid && o.userId == uid) = some ord →
      ord.status = OrderStatus.pending →
      (∀ oi ∈ ord.items, (findProduct db oi.productId).isSome = true) →
      ∃ db', cancelOrder db uid oid = .ok (db', { ord with status := OrderStatus.cancelled }) ∧
        (∀ pid, stockOf db' pid = stockOf db pid + qtyInOrder ord.items pid) ∧
        cancelOrder db' uid oid = .error Err.invalidState ∧
        stepOp db' (Op.cancel uid oid) = db') := by
  refine ⟨fun db uid oid h => cancelOrder_notFound h,
    fun db uid oid ord hf hs => cancelOrder_invalidState hf hs, ?_⟩
  intro db uid oid ord hf hp hex
  have hex' : ∀ oi ∈ ord.items, ∃ p ∈ db.products, p.pid = oi.productId := by
    intro oi hoi
    obtain ⟨p, hp'⟩ := Option.isSome_iff_exists.mp (hex oi hoi)
    obtain ⟨hm, hpid⟩ := findProduct_mem hp'
    exact ⟨p, hm, hpid⟩
  have heq := cancelOrder_ok_of hf hp hex'
  have hoid : ord.oid = oid := by
    have := List.find?_some hf
    simp only [Bool.and_eq_true, beq_iff_eq] at this
    exact this.1
  have hfind2 : (db.orders.map (fun o =>
      if o.oid == oid then { o with status := OrderStatus.cancelled } else o)).find?
      (fun o => o.oid == oid && o.userId == uid)
      = some { ord with status := OrderStatus.cancelled } := by
    rw [find?_map_pred db.orders _ _
      (fun o => by by_cases hc : (o.oid == oid) = true <;> simp [hc])]
    rw [hf]
    simp only [Option.map_some']
    rw [if_pos (by simpa using hoid)]
  have herr2 : cancelOrder
      { db with products := stockAdd db.products (fun j => qtyInOrder ord.items j),
                orders := db.orders.map (fun o =>
                  if o.oid == oid then { o with status := OrderStatus.cancelled } else o) }
      uid oid = .error Err.invalidState :=
    cancelOrder_invalidState hfind2 (by intro hcon; cases hcon)
  refine ⟨_, heq, ?_, herr2, ?_⟩
  · intro pid
    exact stockOf_increment rfl hex' pid
  · simp only [stepOp, herr2]

/-- C5 witness: the §8 cancellation scenario (order `ordAB` with lines
[(A,2),(B,1)], stocks 8 and 4) instantiates `C5_cancelOrder_correct`:
an unknown order id fails `NotFound`; cancelling `ordAB` succeeds,
restoring the stocks to 10 and 5. -/
theorem C5_cancelOrder_correct_witness :
    cancelOrder dbCancel 1 99 = .error Err.orderNotFound ∧
    (∃ db', cancelOrder dbCancel 1 30 = .ok (db', { ordAB with status := OrderStatus.cancelled }) ∧
      (∀ pid, stockOf db' pid = stockOf dbCancel pid + qtyInOrder ordAB.items pid) ∧
      cancelOrder db' 1 30 = .error Err.invalidState ∧
      stepOp db' (Op.cancel 1 30) = db') ∧
    (cancelOrder dbCancel 1 30).map (fun r => (stockOf r.1 1, stockOf r.1 2)) = .ok (10, 5) :=
  ⟨C5_cancelOrder_correct.1 dbCancel 1 99 (by with_unfolding_all decide),
   C5_cancelOrder_correct.2.2 dbCancel 1 30 ordAB (by with_unfolding_all decide)
     (by with_unfolding_all decide) (by with_unfolding_all decide),
   by with_unfolding_all decide⟩

/-- C6 counterexample: the claim says loading an address that exists but
is not owned by the ordering user fails `NotFound`; in the code
`placeOrder` loads the address by id only, so user 1 successfully
places an order with user 2's address. -/
theorem C6_address_ownership_counterexample :
    (dbForeignAddr.addresses.find? (fun a => a.aid == inpNormal.addressId)).map
      Address.userId = some 2 ∧
    (2 : Nat) ≠ 1 ∧
    (placeOrder dbForeignAddr 1 inpNormal).isOk = true := by
  refine ⟨by with_unfolding_all decide, by decide, by with_unfolding_all decide⟩

/-- C6 (amended: ownership is not checked): during `placeOrder`, the
address lookup fails `NotFound` exactly when no address row with the
given id exists — regardless of owner — and on success the found address
is copied by value into both the `shippingAddress` and `billingAddress`
snapshot fields. -/
theorem C6_address_snapshot :
    (∀ (db : DB) (uid : Nat) (data : CreateOrderInput) (cart : CartRow),
      db.carts.find? (fun c => c.userId == some uid) = some cart →
      itemsOf db cart.id ≠ [] →
      (∀ it ∈ itemsOf db cart.id, (findProduct db it.productId).isSome = true ∧
        it.quantity ≤ stockOf db it.productId) →
      db.addresses.find? (fun a => a.aid == data.addressId) = none →
      placeOrder db uid data = .error Err.addressNotFound) ∧
    (∀ (db : DB) (uid : Nat) (data : CreateOrderInput) (db' : DB) (ord : Order),
      placeOrder db uid data = .ok (db', ord) →
      ∃ addr, db.addresses.find? (fun a => a.aid == data.addressId) = some addr ∧
        ord.shippingAddress = addr ∧ ord.billingAddress = addr) := by
  constructor
  · intro db uid data cart hc hne hok ha
    have hok' : ∀ it ∈ itemsOf db cart.id,
        ∃ p, findProduct db it.productId = some p ∧ ¬p.stock < it.quantity := by
      intro it hit
      obtain ⟨p, hp⟩ := Option.isSome_iff_exists.mp (hok it hit).1
      refine ⟨p, hp, ?_⟩
      have hle := (hok it hit).2
      have h2 : stockOf db it.productId = p.stock := by
        unfold stockOf
        rw [hp]
      omega
    simp only [placeOrder, hc]
    rw [if_neg (by simpa [List.isEmpty_iff] using hne)]
    rw [validateAndSubtotal_ok_of 0 hok']
    simp only [ha]
  · intro db uid data db' ord h
    obtain ⟨cart, addr, oitems, hc, hne, hok, ha, hshape, hord, hdb'⟩ := placeOrder_ok_char h
    refine ⟨addr, ha, ?_, ?_⟩
    · rw [hord]; rfl
    · rw [hord]; rfl

/-- C6 witness: on `dbHappy` with an unknown address id 99 the amended
theorem's first part yields `NotFound`; on the happy-path placement the
second part yields the owned address copied into both snapshot fields. -/
theorem C6_address_snapshot_witness :
    placeOrder dbHappy 1 inpBadAddr = .error Err.addressNotFound ∧
    (placeOrder dbHappy 1 inpNormal).map
      (fun r => (r.2.shippingAddress, r.2.billingAddress)) = .ok (addrU1, addrU1) :=
  ⟨C6_address_snapshot.1 dbHappy 1 inpBadAddr cartU1 (by with_unfolding_all decide)
      (by with_unfolding_all decide) (by with_unfolding_all decide)
      (by with_unfolding_all decide),
   by with_unfolding_all decide⟩

/-- C3 counterexample: the claim's accounting formula, read literally
("initialStock − Σ placed in non-cancelled orders + Σ cancelled
quantities"), fails after placing qty 2 of product A (stock 10) and
cancelling the order: the live stock is back to 10, but the formula
yields 10 − 0 + 2 = 12. -/
theorem C3_stock_accounting_counterexample :
    stockOf (runOps dbHappy [Op.place 1 inpNormal, Op.cancel 1 30]) 1 = 10 ∧
    specStockFormula dbHappy (runOps dbHappy [Op.place 1 inpNormal, Op.cancel 1 30]) 1 = 12 ∧
    (10 : Int) ≠ 12 := by
  refine ⟨by with_unfolding_all decide, by with_unfolding_all decide, by decide⟩

/-- C3 (amended: stock = initialStock − Σ placed quantities across all
orders + Σ quantities of cancelled orders, equivalently initialStock
minus the non-cancelled quantities): starting from a valid state with no
orders, after any sequence of `placeOrder`/`cancelOrder` operations
(failed ones roll back to the unchanged state), every product's stock is
non-negative and satisfies the accounting identity. -/
theorem C3_stock_accounting (db0 : DB) (ops : List Op)
    (v : ValidDB db0) (h0 : db0.orders = []) :
    (∀ p ∈ (runOps db0 ops).products, 0 ≤ p.stock) ∧
    ∀ pid, stockOf (runOps db0 ops) pid =
      stockOf db0 pid - placedQty (runOps db0 ops) pid
        + cancelledQty (runOps db0 ops) pid := by
  obtain ⟨hv, hacc⟩ := runOps_valid_acc db0 v ops
  refine ⟨hv.stocks_nonneg, fun pid => ?_⟩
  have h1 := hacc pid
  have hp0 : placedQty db0 pid = 0 := by simp [placedQty, h0]
  have hc0 : cancelledQty db0 pid = 0 := by simp [cancelledQty, h0]
  omega

/-- C3 witness: the place-then-cancel run on `dbHappy` instantiates
`C3_stock_accounting`; evaluating at product A confirms stock 10. -/
theorem C3_stock_accounting_witness :
    (stockOf (runOps dbHappy [Op.place 1 inpNormal, Op.cancel 1 30]) 1 =
      stockOf dbHappy 1 - placedQty (runOps dbHappy [Op.place 1 inpNormal, Op.cancel 1 30]) 1
        + cancelledQty (runOps dbHappy [Op.place 1 inpNormal, Op.cancel 1 30]) 1) ∧
    stockOf (runOps dbHappy [Op.place 1 inpNormal, Op.cancel 1 30]) 1 = 10 :=
  ⟨(C3_stock_accounting dbHappy [Op.place 1 inpNormal, Op.cancel 1 30]
      ⟨by with_unfolding_all decide, by with_unfolding_all decide,
       by with_unfolding_all decide, by with_unfolding_all decide,
       by with_unfolding_all decide, by with_unfolding_all decide,
       by with_unfolding_all decide⟩ (by with_unfolding_all decide)).2 1,
   by with_unfolding_all decide⟩

/-- C4: the per-line policy of `mergeGuestCart`'s loop (`mergeStep`): a
guest line is skipped entirely when its product is not active or when
`min(guestQty, stock) < 1`; on a conflict the user line is updated to
`min(max(userQty, guestQty), stock)` (never the sum); otherwise a new
user line is created with `min(guestQty, stock)`.  End to end: user qty
2 and guest qty 5 merge to 5 with stock 10, and to 3 with stock 3. -/
theorem C4_merge_conflict_policy :
    (∀ (u : Nat) (db : DB) (g : CartItem) (p : Product),
      findProduct db g.productId = some p → p.status ≠ PStatus.active →
      mergeStep u db g = .ok db) ∧
    (∀ (u : Nat) (db : DB) (g : CartItem) (p : Product),
      findProduct db g.productId = some p → p.status = PStatus.active →
      min g.quantity p.stock < 1 → mergeStep u db g = .ok db) ∧
    (∀ (u : Nat) (db : DB) (g : CartItem) (p : Product) (ex : CartItem),
      findProduct db g.productId = some p → p.status = PStatus.active →
      ¬min g.quantity p.stock < 1 →
      db.cartItems.find? (fun it => it.cartId == u && it.productId == g.productId)
        = some ex →
      ∃ db', mergeStep u db g = .ok db' ∧
        userLineQty db' u g.productId = some (min (max ex.quantity g.quantity) p.stock)) ∧
    (∀ (u : Nat) (db : DB) (g : CartItem) (p : Product),
      findProduct db g.productId = some p → p.status = PStatus.active →
      ¬min g.quantity p.stock < 1 →
      db.cartItems.find? (fun it => it.cartId == u && it.productId == g.productId)
        = none →
      ∃ db', mergeStep u db g = .ok db' ∧
        userLineQty db' u g.productId = some (min g.quantity p.stock)) ∧
    (mergeGuestCart dbMerge10 1 { guestCartId := 7 }).map
      (fun r => r.1.items.map (fun v => (v.productId, v.quantity))) = .ok [(1, 5)] ∧
    (mergeGuestCart dbMerge3 1 { guestCartId := 7 }).map
      (fun r => r.1.items.map (fun v => (v.productId, v.quantity))) = .ok [(1, 3)] := by
  refine ⟨fun u db g p hp hs => mergeStep_inactive hp hs,
    fun u db g p hp hs hq => mergeStep_lowstock hp hs hq,
    ?_, ?_, by with_unfolding_all decide, by with_unfolding_all decide⟩
  · intro u db g p ex hp hs hq hex
    obtain ⟨h1, h2⟩ := mergeStep_conflict hp hs hq hex
    exact ⟨_, h1, h2⟩
  · intro u db g p hp hs hq hnone
    obtain ⟨h1, h2⟩ := mergeStep_new hp hs hq hnone
    exact ⟨_, h1, h2⟩

/-- C4 witness: the conflict and no-conflict branches of
`C4_merge_conflict_policy` instantiated on the merge-conflict scenario
(user qty 2, guest qty 5, stock 10, and the same with an empty user
cart). -/
theorem C4_merge_conflict_policy_witness :
    (∃ db', mergeStep 10 dbMerge10 { id := 21, cartId := 11, productId := 1, quantity := 5 }
        = .ok db' ∧ userLineQty db' 10 1 = some 5) ∧
    (∃ db', mergeStep 30 dbMerge10 { id := 21, cartId := 11, productId := 1, quantity := 5 }
        = .ok db' ∧ userLineQty db' 30 1 = some 5) := by
  constructor
  · have h := C4_merge_conflict_policy.2.2.1 10 dbMerge10
      { id := 21, cartId := 11, productId := 1, quantity := 5 }
      { pid := 1, name := "A", price := 50, discountPrice := none,
        stock := 10, status := .active }
      { id := 20, cartId := 10, productId := 1, quantity := 2 }
      (by with_unfolding_all decide) (by with_unfolding_all decide)
      (by with_unfolding_all decide) (by with_unfolding_all decide)
    exact h
  · have h := C4_merge_conflict_policy.2.2.2.1 30 dbMerge10
      { id := 21, cartId := 11, productId := 1, quantity := 5 }
      { pid := 1, name := "A", price := 50, discountPrice := none,
        stock := 10, status := .active }
      (by with_unfolding_all decide) (by with_unfolding_all decide)
      (by with_unfolding_all decide) (by with_unfolding_all decide)
    exact h

/-- C8 counterexample: the claim says resolution fails `InvalidIdentity`
when both a user id and a guest token are present; in the code the user
branch simply wins, so resolution succeeds on `dbMerge10` with both
identities supplied. -/
theorem C8_identity_resolution_counterexample :
    resolveCart dbMerge10 (some 1) (some 7) = .ok (cartU1, dbMerge10) := by
  with_unfolding_all decide

/-- C8 (amended: at least one identity must be present — with neither,
resolution fails `InvalidIdentity`; when both are present the user
identity wins and the guest token is ignored; a missing cart for the
resolved identity is created with zero lines). -/
theorem C8_identity_resolution :
    (∀ db : DB, resolveCart db none none = .error Err.invalidIdentity) ∧
    (∀ (db : DB) (u : Nat) (g : Option Nat),
      resolveCart db (some u) g = resolveCart db (some u) none) ∧
    (∀ (db : DB) (u : Nat) (g : Option Nat),
      db.carts.find? (fun c => c.userId == some u) = none →
      (∀ it ∈ db.cartItems, it.cartId ≠ db.nextId) →
      ∃ c db', resolveCart db (some u) g = .ok (c, db') ∧
        c.userId = some u ∧ c ∈ db'.carts ∧ itemsOf db' c.id = []) ∧
    (∀ (db : DB) (g : Nat),
      db.carts.find? (fun c => c.guestCartId == some g) = none →
      (∀ it ∈ db.cartItems, it.cartId ≠ db.nextId) →
      ∃ c db', resolveCart db none (some g) = .ok (c, db') ∧
        c.guestCartId = some g ∧ c ∈ db'.carts ∧ itemsOf db' c.id = []) := by
  refine ⟨fun db => rfl, fun db u g => rfl, ?_, ?_⟩
  · intro db u g hnone hfresh
    refine ⟨{ id := db.nextId, userId := some u, guestCartId := none },
      { db with carts := db.carts ++ [{ id := db.nextId, userId := some u, guestCartId := none }],
                nextId := db.nextId + 1 }, ?_, rfl, ?_, ?_⟩
    · unfold resolveCart
      simp only [hnone]
    · exact List.mem_append_right _ (List.mem_singleton.mpr rfl)
    · apply List.filter_eq_nil_iff.mpr
      intro it hit
      simpa using hfresh it hit
  · intro db g hnone hfresh
    refine ⟨{ id := db.nextId, userId := none, guestCartId := some g },
      { db with carts := db.carts ++ [{ id := db.nextId, userId := none, guestCartId := some g }],
                nextId := db.nextId + 1 }, ?_, rfl, ?_, ?_⟩
    · unfold resolveCart
      simp only [hnone]
    · exact List.mem_append_right _ (List.mem_singleton.mpr rfl)
    · apply List.filter_eq_nil_iff.mpr
      intro it hit
      simpa using hfresh it hit

/-- C8 witness: `C8_identity_resolution` instantiated on `dbGuest`
(user 1 has no cart; a fresh guest token 9 has no cart): missing
identities fail, and both creation paths produce a cart with zero
lines. -/
theorem C8_identity_resolution_witness :
    resolveCart dbGuest none none = .error Err.invalidIdentity ∧
    resolveCart dbGuest (some 1) (some 7) = resolveCart dbGuest (some 1) none ∧
    (∃ c db', resolveCart dbGuest (some 1) (some 7) = .ok (c, db') ∧
      c.userId = some 1 ∧ c ∈ db'.carts ∧ itemsOf db' c.id = []) ∧
    (∃ c db', resolveCart dbGuest none (some 9) = .ok (c, db') ∧
      c.guestCartId = some 9 ∧ c ∈ db'.carts ∧ itemsOf db' c.id = []) :=
  ⟨C8_identity_resolution.1 dbGuest,
   C8_identity_resolution.2.1 dbGuest 1 (some 7),
   C8_identity_resolution.2.2.1 dbGuest 1 (some 7) (by with_unfolding_all decide)
     (by with_unfolding_all decide),
   C8_identity_resolution.2.2.2 dbGuest 9 (by with_unfolding_all decide)
     (by with_unfolding_all decide)⟩

/-- C9: in `buildCartResponse`, each line's subtotal is
`round2(unitPrice × quantity)` with `unitPrice = discountPrice ?? price`
and each line's savings is `round2((price − discountPrice) × quantity)`
when a truthy discount exists, else 0 — both rounded per line — and the
summary's subtotal and total savings are the sums of those
already-rounded line values, rounded again to 2 decimals.  On two lines
priced 10.005 × qty 1 the summary subtotal is 20.02, not 20.01. -/
theorem C9_cart_summary_rounding :
    (∀ (db : DB) (cart : CartRow) (resp : CartResponse),
      buildCartResponse db cart = .ok resp →
      (∀ v ∈ resp.items, ∃ it ∈ itemsOf db cart.id, ∃ p,
        findProduct db it.productId = some p ∧
        v.subtotal = round2 (nullish p.discountPrice p.price * (it.quantity : ℚ)) ∧
        v.savings = (match p.discountPrice with
          | none => (0 : ℚ)
          | some d => if d = 0 then 0 else round2 ((p.price - d) * (it.quantity : ℚ)))) ∧
      resp.summary.subtotal = round2 ((resp.items.map CartLineView.subtotal).sum) ∧
      resp.summary.totalSavings = round2 ((resp.items.map CartLineView.savings).sum)) ∧
    buildCartResponse dbRound cartU1 = .ok respRound ∧
    respRound.items.map CartLineView.subtotal = [10.01, 10.01] ∧
    respRound.summary.subtotal = 20.02 ∧
    (20.02 : ℚ) ≠ 20.01 := by
  refine ⟨?_, by with_unfolding_all decide, by with_unfolding_all decide,
    by with_unfolding_all decide, by with_unfolding_all decide⟩
  intro db cart resp h
  obtain ⟨vs, hl, hitems, -, -, -, hsub, hsav⟩ := buildCartResponse_ok_char h
  subst hitems
  refine ⟨?_, hsub, hsav⟩
  intro v hv
  obtain ⟨it, hit, p, hp, -, -, h3, h4⟩ := lineViews_mem_char hl v hv
  exact ⟨it, hit, p, hp, h3, h4⟩

/-- C9 witness: `C9_cart_summary_rounding` instantiated on the rounding
scenario `dbRound` and its response `respRound`. -/
theorem C9_cart_summary_rounding_witness :
    (∀ v ∈ respRound.items, ∃ it ∈ itemsOf dbRound cartU1.id, ∃ p,
      findProduct dbRound it.productId = some p ∧
      v.subtotal = round2 (nullish p.discountPrice p.price * (it.quantity : ℚ)) ∧
      v.savings = (match p.discountPrice with
        | none => (0 : ℚ)
        | some d => if d = 0 then 0 else round2 ((p.price - d) * (it.quantity : ℚ)))) ∧
    respRound.summary.subtotal = round2 ((respRound.items.map CartLineView.subtotal).sum) :=
  ⟨((C9_cart_summary_rounding.1 dbRound cartU1 respRound (by with_unfolding_all decide)).1),
   ((C9_cart_summary_rounding.1 dbRound cartU1 respRound (by with_unfolding_all decide)).2.1)⟩

/-- C10: the cart summary and `placeOrder` use different unit-price
rules (`??` versus `||`).  For every cart whose products all have
`discountPrice` absent or strictly positive, the two subtotals agree
before rounding; but on a product with `discountPrice = 0` and price 50
they diverge: `placeOrder` charges 50 while the cart summary's unit
prices sum to 0. -/
theorem C10_subtotal_rule_divergence :
    (∀ (db : DB) (cart : CartRow) (resp : CartResponse) (s : ℚ),
      (∀ p ∈ db.products, 0 < p.discountPrice.getD 1) →
      buildCartResponse db cart = .ok resp →
      validateAndSubtotal db 0 (itemsOf db cart.id) = .ok s →
      s = (resp.items.map (fun v => v.unitPrice * (v.quantity : ℚ))).sum) ∧
    (placeOrder dbZeroDisc 1 inpNormal).map (fun r => r.2.totalAmount) = .ok 50 ∧
    (buildCartResponse dbZeroDisc cartU1).map
      (fun r => (r.items.map (fun v => v.unitPrice * (v.quantity : ℚ))).sum) = .ok 0 ∧
    (50 : ℚ) ≠ 0 := by
  refine ⟨?_, by with_unfolding_all decide, by with_unfolding_all decide,
    by with_unfolding_all decide⟩
  intro db cart resp s hdp hb hv
  obtain ⟨vs, hl, hitems, -, -, -, -, -⟩ := buildCartResponse_ok_char hb
  subst hitems
  rw [lineViews_ok_unitSum hl]
  have hval := validateAndSubtotal_ok_val hv
  rw [hval, zero_add]
  unfold subtotalSum
  refine congrArg List.sum (List.map_congr_left (fun it hit => ?_))
  unfold unitOf unitOfCart
  cases hf : findProduct db it.productId with
  | none => rfl
  | some p =>
    have hm := (findProduct_mem hf).1
    have hdp' := hdp p hm
    congr 1
    apply jsOr_eq_nullish
    cases hd : p.discountPrice with
    | none => exact .inl rfl
    | some d =>
      right
      refine ⟨d, rfl, ?_⟩
      rw [hd] at hdp'
      simpa using hdp'

/-- C10 witness: `C10_subtotal_rule_divergence` instantiated on the
happy-path state (discountPrice 40 > 0): the order subtotal 80 equals
the cart summary's unrounded unit-price sum. -/
theorem C10_subtotal_rule_divergence_witness :
    (80 : ℚ) = (respHappy.items.map (fun v => v.unitPrice * (v.quantity : ℚ))).sum :=
  C10_subtotal_rule_divergence.1 dbHappy cartU1 respHappy 80
    (by with_unfolding_all decide) (by with_unfolding_all decide)
    (by with_unfolding_all decide)

/-! ### C7: merge retires the guest cart row -/

theorem pairwise_ne_distinct {α : Type} {R : α → α → Prop}
    (hsym : ∀ a b, R a b → R b a) {l : List α} (h : l.Pairwise R) {a b : α}
    (ha : a ∈ l) (hb : b ∈ l) (hne : a ≠ b) : R a b := by
  induction l with
  | nil => cases ha
  | cons x rest ih =>
    obtain ⟨hx, hrest⟩ := List.pairwise_cons.mp h
    rcases List.mem_cons.mp ha with rfl | ha'
    · rcases List.mem_cons.mp hb with rfl | hb'
      · exact absurd rfl hne
      · exact hx b hb'
    · rcases List.mem_cons.mp hb with rfl | hb'
      · exact hsym _ _ (hx a ha')
      · exact ih hrest ha' hb'

theorem getCart_user_carts {db : DB} {uid : Nat} {resp : CartResponse} {dbf : DB}
    (h : getCart db (some uid) none = .ok (resp, dbf)) :
    (dbf.carts = db.carts ∨
      dbf.carts = db.carts ++ [{ id := db.nextId, userId := some uid, guestCartId := none }]) ∧
    dbf.cartItems = db.cartItems ∧ db.nextId ≤ dbf.nextId := by
  unfold getCart resolveCart at h
  cases hru : db.carts.find? (fun c => c.userId == some uid) with
  | some c =>
    simp only [hru] at h
    cases hb : buildCartResponse db c with
    | error e => simp only [hb] at h; cases h
    | ok r =>
      simp only [hb] at h
      injection h with h
      injection h with h1 h2
      rw [← h2]
      exact ⟨.inl rfl, rfl, le_refl _⟩
  | none =>
    simp only [hru] at h
    cases hb : buildCartResponse { db with carts := db.carts ++ [{ id := db.nextId, userId := some uid, guestCartId := none }], nextId := db.nextId + 1 } { id := db.nextId, userId := some uid, guestCartId := none } with
    | error e => simp only [hb] at h; cases h
    | ok r =>
      simp only [hb] at h
      injection h with h
      injection h with h1 h2
      rw [← h2]
      exact ⟨.inr rfl, rfl, Nat.le_succ _⟩

theorem getCart_guest_fresh {db : DB} {T : Nat}
    (hnone : db.carts.find? (fun c => c.guestCartId == some T) = none)
    (hfresh : ∀ it ∈ db.cartItems, it.cartId ≠ db.nextId) :
    ∃ resp2 db2, getCart db none (some T) = .ok (resp2, db2) ∧ resp2.items = [] ∧
      ∃ c ∈ db2.carts, c.guestCartId = some T ∧ itemsOf db2 c.id = [] := by
  have hempty : itemsOf { db with carts := db.carts ++ [{ id := db.nextId, userId := none, guestCartId := some T }], nextId := db.nextId + 1 } db.nextId = [] := by
    apply List.filter_eq_nil_iff.mpr
    intro it hit
    simpa using hfresh it hit
  have hb : buildCartResponse { db with carts := db.carts ++ [{ id := db.nextId, userId := none, guestCartId := some T }], nextId := db.nextId + 1 } { id := db.nextId, userId := none, guestCartId := some T } = .ok { cartId := db.nextId, guestCartId := some T, items := [], summary := { totalItems := 0, subtotal := round2 0, totalSavings := round2 0 } } := by
    unfold buildCartResponse
    dsimp only
    rw [hempty]
    rfl
  refine ⟨{ cartId := db.nextId, guestCartId := some T, items := [], summary := { totalItems := 0, subtotal := round2 0, totalSavings := round2 0 } }, { db with carts := db.carts ++ [{ id := db.nextId, userId := none, guestCartId := some T }], nextId := db.nextId + 1 }, ?_, rfl, ⟨{ id := db.nextId, userId := none, guestCartId := some T }, List.mem_append_right _ (List.mem_singleton.mpr rfl), rfl, hempty⟩⟩
  unfold getCart resolveCart
  simp only [hnone, hb]

theorem C7_tail {db4 dbf : DB} {uid T gcid : Nat} {resp : CartResponse}
    (h' : getCart db4 (some uid) none = .ok (resp, dbf))
    (hA : ∀ c ∈ db4.carts, c.guestCartId ≠ some T)
    (hB : ∀ it ∈ db4.cartItems, it.cartId ≠ gcid)
    (hC : ∀ it ∈ db4.cartItems, it.cartId < db4.nextId) :
    (∀ c ∈ dbf.carts, c.guestCartId ≠ some T) ∧
    (∀ it ∈ dbf.cartItems, it.cartId ≠ gcid) ∧
    (∃ resp2 db2, getCart dbf none (some T) = .ok (resp2, db2) ∧ resp2.items = [] ∧
      ∃ c ∈ db2.carts, c.guestCartId = some T ∧ itemsOf db2 c.id = []) := by
  obtain ⟨hcarts, hitems, hnext⟩ := getCart_user_carts h'
  have hA' : ∀ c ∈ dbf.carts, c.guestCartId ≠ some T := by
    intro c hc
    rcases hcarts with he | he
    · rw [he] at hc
      exact hA c hc
    · rw [he] at hc
      rcases List.mem_append.mp hc with hm | hm
      · exact hA c hm
      · rw [List.mem_singleton.mp hm]
        intro hcon
        cases hcon
  refine ⟨hA', ?_, ?_⟩
  · intro it hit
    rw [hitems] at hit
    exact hB it hit
  · apply getCart_guest_fresh
    · apply List.find?_eq_none.mpr
      intro c hc
      simpa using hA' c hc
    · intro it hit
      rw [hitems] at hit
      have := hC it hit
      omega

/-- C7 counterexample: the claim says that after a merge the guest token
no longer resolves to any cart; in the code `resolveCart` lazily
re-creates a cart for any unknown token, so presenting token 7 after the
merge succeeds again (yielding a fresh empty guest cart under the same
token). -/
theorem C7_guest_cart_retired_counterexample :
    ((mergeGuestCart dbGuest 1 { guestCartId := 7 }).bind
      (fun r => getCart r.2 none (some 7))).isOk = true ∧
    ((mergeGuestCart dbGuest 1 { guestCartId := 7 }).bind
      (fun r => getCart r.2 none (some 7))).map
        (fun r => (r.1.items.length, r.2.carts.any (fun c => c.guestCartId == some 7)))
      = .ok (0, true) := by
  refine ⟨by with_unfolding_all decide, by with_unfolding_all decide⟩

/-- C7 (amended: the guest cart's lines and the guest cart row itself are
deleted, so the token no longer maps to the merged cart and its contents
are unrecoverable; but the token itself is not retired — a subsequent
cart access presenting it lazily creates a fresh empty guest cart under
the same token). -/
theorem C7_guest_cart_retired {db : DB} {uid T : Nat} {gc : CartRow}
    {resp : CartResponse} {dbf : DB}
    (v : ValidCarts db)
    (hg : db.carts.find? (fun c => c.guestCartId == some T) = some gc)
    (hne : itemsOf db gc.id ≠ [])
    (h : mergeGuestCart db uid { guestCartId := T } = .ok (resp, dbf)) :
    (∀ c ∈ dbf.carts, c.guestCartId ≠ some T) ∧
    (∀ it ∈ dbf.cartItems, it.cartId ≠ gc.id) ∧
    (∃ resp2 db2, getCart dbf none (some T) = .ok (resp2, db2) ∧ resp2.items = [] ∧
      ∃ c ∈ db2.carts, c.guestCartId = some T ∧ itemsOf db2 c.id = []) := by
  have hgc : gc.guestCartId = some T := by
    have := List.find?_some hg
    simpa using this
  have hgcmem : gc ∈ db.carts := List.mem_of_find?_eq_some hg
  have hS : db.carts.Pairwise
      (fun a b => ¬(a.guestCartId = some T ∧ b.guestCartId = some T)) := by
    refine v.token_unique.imp ?_
    intro a b r hab
    rcases r with hn | hne'
    · rw [hab.1] at hn
      cases hn
    · rw [hab.1, hab.2] at hne'
      exact hne' rfl
  have hTok : ∀ c ∈ db.carts, c ≠ gc → c.guestCartId ≠ some T := by
    intro c hc hcne hcT
    exact pairwise_ne_distinct (fun a b hr hab => hr ⟨hab.2, hab.1⟩) hS hc hgcmem hcne
      ⟨hcT, hgc⟩
  have h' := h
  simp only [mergeGuestCart, hg] at h'
  rw [if_neg (by simpa [List.isEmpty_iff] using hne)] at h'
  cases huf : db.carts.find? (fun c => c.userId == some uid) with
  | some uc =>
    simp only [huf] at h'
    cases hml : mergeLoop uc.id db (itemsOf db gc.id) with
    | error e => simp only [hml] at h'; cases h'
    | ok db2 =>
      simp only [hml] at h'
      obtain ⟨f1, -, -, -, f5, f6⟩ := mergeLoop_fields hml
      have hucid : uc.id < db.nextId := v.ids_fresh uc (List.mem_of_find?_eq_some huf)
      refine C7_tail h' ?_ ?_ ?_
      · intro c hc
        have hc' : c ∈ db2.carts.filter (fun c => c.id != gc.id) := hc
        obtain ⟨hcm, hcid⟩ := List.mem_filter.mp hc'
        rw [f1] at hcm
        refine hTok c hcm ?_
        intro he
        rw [he] at hcid
        simp at hcid
      · intro it hit
        have hit' : it ∈ db2.cartItems.filter (fun it => it.cartId != gc.id) := hit
        obtain ⟨-, hcid⟩ := List.mem_filter.mp hit'
        simpa using hcid
      · intro it hit
        have hit' : it ∈ db2.cartItems.filter (fun it => it.cartId != gc.id) := hit
        obtain ⟨hm, -⟩ := List.mem_filter.mp hit'
        show it.cartId < db2.nextId
        rcases f6 it hm with ⟨it0, hit0, he⟩ | he
        · have := v.items_fresh it0 hit0
          have : it.cartId < db.nextId := he ▸ this
          omega
        · rw [he]
          omega
  | none =>
    simp only [huf] at h'
    cases hml : mergeLoop db.nextId { db with carts := db.carts ++ [{ id := db.nextId, userId := some uid, guestCartId := none }], nextId := db.nextId + 1 } (itemsOf db gc.id) with
    | error e => simp only [hml] at h'; cases h'
    | ok db2 =>
      simp only [hml] at h'
      obtain ⟨f1, -, -, -, f5, f6⟩ := mergeLoop_fields hml
      refine C7_tail h' ?_ ?_ ?_
      · intro c hc
        have hc' : c ∈ db2.carts.filter (fun c => c.id != gc.id) := hc
        obtain ⟨hcm, hcid⟩ := List.mem_filter.mp hc'
        rw [f1] at hcm
        rcases List.mem_append.mp hcm with hm | hm
        · refine hTok c hm ?_
          intro he
          rw [he] at hcid
          simp at hcid
        · rw [List.mem_singleton.mp hm]
          intro hcon
          cases hcon
      · intro it hit
        have hit' : it ∈ db2.cartItems.filter (fun it => it.cartId != gc.id) := hit
        obtain ⟨-, hcid⟩ := List.mem_filter.mp hit'
        simpa using hcid
      · intro it hit
        have hit' : it ∈ db2.cartItems.filter (fun it => it.cartId != gc.id) := hit
        obtain ⟨hm, -⟩ := List.mem_filter.mp hit'
        have f5' : db.nextId + 1 ≤ db2.nextId := f5
        show it.cartId < db2.nextId
        rcases f6 it hm with ⟨it0, hit0, he⟩ | he
        · have hif : it0 ∈ db.cartItems := hit0
          have := v.items_fresh it0 hif
          have : it.cartId < db.nextId := he ▸ this
          omega
        · rw [he]
          omega

/-- C7 witness: the §8 guest-merge scenario (guest cart token 7 holding
[{A, qty 1}], user 1 without a cart) instantiates
`C7_guest_cart_retired`. -/
theorem C7_guest_cart_retired_witness :
    (∀ c ∈ dbfGuest.carts, c.guestCartId ≠ some 7) ∧
    (∀ it ∈ dbfGuest.cartItems, it.cartId ≠ 11) ∧
    (∃ resp2 db2, getCart dbfGuest none (some 7) = .ok (resp2, db2) ∧ resp2.items = [] ∧
      ∃ c ∈ db2.carts, c.guestCartId = some 7 ∧ itemsOf db2 c.id = []) :=
  @C7_guest_cart_retired dbGuest 1 7
    { id := 11, userId := none, guestCartId := some 7 } respGuestMerge dbfGuest
    ⟨by with_unfolding_all decide, by with_unfolding_all decide,
     by with_unfolding_all decide, by with_unfolding_all decide,
     by with_unfolding_all decide⟩
    (by with_unfolding_all decide) (by with_unfolding_all decide)
    (by with_unfolding_all decide)

end PersonalCare
